import Mathlib

/-!
Verification of the entity-matching and cache-resolution core of the
hotelfinder-worker repository.

The definitions below are a shallow embedding of the JavaScript source:

* lib/matching.js   — tokenization, brand / key-group / accommodation-type
  signal extraction, scoring, confidence, cached-token validation and
  property picking;
* lib/constants.js  — the rule tables and numeric constants;
* routes/compare.js — the multi-tier token resolution cascade.

Strings are modelled as lists of characters.  JavaScript numbers are
modelled as exact rationals: every constant in the scoring engine is a
small decimal fraction and every operation used (addition, subtraction,
multiplication, min, max, division by a token count) is exact on the
values that arise, so no floating-point rounding is observable in the
properties treated here.

The JavaScript engine's Unicode facilities are modelled on the character
ranges the matching engine exercises: String.prototype.toLowerCase is
modelled on ASCII, the NFD-decomposition diacritic stripper is modelled by
a finite table of precomposed Latin letters, and the \p{L}\p{N} word
character class is modelled as ASCII alphanumeric (diacritics having
already been mapped to ASCII by the stripper).
-/

namespace HW

/-- Character strings, the model of JavaScript strings. -/
abbrev Str := List Char

/-- One token (word) of a name. -/
abbrev Word := List Char

/-- Makes a Str from a string literal. -/
def str (s : String) : Str := s.data

/-!
Exact rational arithmetic.  The library's rational operations are marked
irreducible, which blocks kernel evaluation of concrete scores, so the
embedding uses the following mirrors built on the reducible constructor
mkRat; each is proved equal to the corresponding library operation, and
every theorem below is stated with the ordinary operations.
-/

/-- The rational n / d, built reducibly. -/
def qc (n : Int) (d : Nat) : ℚ := mkRat n d

/-- A natural number as a rational, built reducibly. -/
def qNat (n : Nat) : ℚ := mkRat n 1

/-- Reducible rational addition. -/
def rAdd (a b : ℚ) : ℚ := mkRat (a.num * b.den + b.num * a.den) (a.den * b.den)

/-- Reducible rational subtraction. -/
def rSub (a b : ℚ) : ℚ := mkRat (a.num * b.den - b.num * a.den) (a.den * b.den)

/-- Reducible rational multiplication. -/
def rMul (a b : ℚ) : ℚ := mkRat (a.num * b.num) (a.den * b.den)

/-- Reducible division of a rational by a natural number. -/
def rDivNat (a : ℚ) (n : Nat) : ℚ := mkRat a.num (a.den * n)

/-- Reducible rational minimum. -/
def rMin (a b : ℚ) : ℚ := if a ≤ b then a else b

/-- Reducible rational maximum. -/
def rMax (a b : ℚ) : ℚ := if a ≤ b then b else a

theorem rAdd_eq (a b : ℚ) : rAdd a b = a + b := by
  unfold rAdd
  rw [Rat.mkRat_eq_div]
  push_cast
  conv_rhs => rw [← Rat.num_div_den a, ← Rat.num_div_den b]
  rw [div_add_div _ _ (by exact_mod_cast a.den_nz : ((a.den : ℚ)) ≠ 0)
      (by exact_mod_cast b.den_nz : ((b.den : ℚ)) ≠ 0)]
  ring_nf

theorem rSub_eq (a b : ℚ) : rSub a b = a - b := by
  unfold rSub
  rw [Rat.mkRat_eq_div]
  push_cast
  conv_rhs => rw [← Rat.num_div_den a, ← Rat.num_div_den b]
  rw [div_sub_div _ _ (by exact_mod_cast a.den_nz : ((a.den : ℚ)) ≠ 0)
      (by exact_mod_cast b.den_nz : ((b.den : ℚ)) ≠ 0)]
  ring_nf

theorem rMul_eq (a b : ℚ) : rMul a b = a * b := by
  unfold rMul
  rw [Rat.mkRat_eq_div]
  push_cast
  conv_rhs => rw [← Rat.num_div_den a, ← Rat.num_div_den b]
  rw [div_mul_div_comm]

theorem rDivNat_eq (a : ℚ) (n : Nat) : rDivNat a n = a / n := by
  unfold rDivNat
  rw [Rat.mkRat_eq_div]
  push_cast
  conv_rhs => rw [← Rat.num_div_den a]
  rw [div_div]

theorem rMin_eq (a b : ℚ) : rMin a b = min a b := by
  unfold rMin
  rw [min_def]

theorem rMax_eq (a b : ℚ) : rMax a b = max a b := by
  unfold rMax
  rw [max_def]

theorem qNat_eq (n : Nat) : qNat n = (n : ℚ) := by
  unfold qNat
  rw [Rat.mkRat_eq_div]
  norm_num

/-- Table of precomposed accented Latin letters and their base letters.
Models the NFD-decompose-and-drop-combining-marks transform of
stripDiacritics in lib/matching.js on the precomposed Latin range. -/
def diacriticPairs : List (Char × Char) :=
  [('á','a'),('à','a'),('â','a'),('ä','a'),('ã','a'),('å','a'),
   ('é','e'),('è','e'),('ê','e'),('ë','e'),
   ('í','i'),('ì','i'),('î','i'),('ï','i'),
   ('ó','o'),('ò','o'),('ô','o'),('ö','o'),('õ','o'),
   ('ú','u'),('ù','u'),('û','u'),('ü','u'),
   ('ý','y'),('ÿ','y'),('ñ','n'),('ç','c'),
   ('Á','A'),('À','A'),('Â','A'),('Ä','A'),('Ã','A'),('Å','A'),
   ('É','E'),('È','E'),('Ê','E'),('Ë','E'),
   ('Í','I'),('Ì','I'),('Î','I'),('Ï','I'),
   ('Ó','O'),('Ò','O'),('Ô','O'),('Ö','O'),('Õ','O'),
   ('Ú','U'),('Ù','U'),('Û','U'),('Ü','U'),
   ('Ý','Y'),('Ñ','N'),('Ç','C')]

/-- Applies a lookup table to a character, leaving unknown characters as is. -/
def tableMap (t : List (Char × Char)) (c : Char) : Char :=
  (t.lookup c).getD c

/-- stripDiacritics from lib/matching.js, characterwise. -/
def stripDiacriticsChar (c : Char) : Char := tableMap diacriticPairs c

/-- Table sending ASCII uppercase letters to lowercase. -/
def upperLowerPairs : List (Char × Char) :=
  [('A','a'),('B','b'),('C','c'),('D','d'),('E','e'),('F','f'),('G','g'),
   ('H','h'),('I','i'),('J','j'),('K','k'),('L','l'),('M','m'),('N','n'),
   ('O','o'),('P','p'),('Q','q'),('R','r'),('S','s'),('T','t'),('U','u'),
   ('V','v'),('W','w'),('X','x'),('Y','y'),('Z','z')]

/-- String.prototype.toLowerCase, characterwise, modelled on ASCII. -/
def asciiToLower (c : Char) : Char := tableMap upperLowerPairs c

/-- The composed character normalization every tokenizer in
lib/matching.js applies: strip diacritics, then lowercase. -/
def charMap (c : Char) : Char := asciiToLower (stripDiacriticsChar c)

/-- Word characters: the model of the \p{L}\p{N} class of the
tokenizer regexes, after diacritics have been mapped to ASCII. -/
def isWordChar (c : Char) : Bool := c.isAlpha || c.isDigit

/-- Splits a character list into maximal runs of word characters;
the accumulator holds the current run, reversed. -/
def splitWordsAux : List Char → Word → List Word
  | [], acc => if acc.isEmpty then [] else [acc.reverse]
  | c :: rest, acc =>
    if isWordChar c then splitWordsAux rest (c :: acc)
    else if acc.isEmpty then splitWordsAux rest []
    else acc.reverse :: splitWordsAux rest []

/-- Splits a character list into maximal runs of word characters. -/
def splitWords (l : List Char) : List Word := splitWordsAux l []

/-- The words of a name after diacritic stripping and lowercasing.
This is the token stream every normalizer in lib/matching.js is built
from: stripDiacritics, toLowerCase, replace non-alphanumeric runs. -/
def phraseWords (s : Str) : List Word := splitWords (s.map charMap)

/-- Joins words with single spaces. -/
def joinWords : List Word → Str
  | [] => []
  | [w] => w
  | w :: ws => w ++ ' ' :: joinWords ws

/-- normalizeForIncludes from lib/matching.js: diacritics stripped,
lowercased, non-alphanumeric runs collapsed to single spaces, trimmed. -/
def normalizeForIncludes (s : Str) : Str := joinWords (phraseWords s)

/-- tokenizeRaw from lib/matching.js: all words of length above one,
stopwords included. -/
def tokenizeRaw (s : Str) : List Word :=
  (phraseWords s).filter (fun w => w.length > 1)

/-- NAME_STOP_WORDS from lib/matching.js. -/
def NAME_STOP_WORDS : List Word :=
  ["hotel", "by", "the", "and", "of", "at", "in", "a", "an", "resort", "inn",
   "apartments", "apartment", "suites", "suite", "hostel", "guesthouse"].map str

/-- tokenizeName from lib/matching.js: words of length above one that are
not stopwords. -/
def tokenizeName (s : Str) : List Word :=
  (phraseWords s).filter (fun t => t.length > 1 && !(NAME_STOP_WORDS.contains t))

/-- Does the first list occur at the head of the second? -/
def startsWithL {α : Type} [DecidableEq α] : List α → List α → Bool
  | [], _ => true
  | _ :: _, [] => false
  | a :: as, b :: bs => if a = b then startsWithL as bs else false

/-- Does the first list occur contiguously inside the second?  Models both
String.prototype.includes (on characters) and the word-boundary phrase
regexes of patternToRegex (on word lists): a \b-delimited, \s+-joined
phrase matches a normalized name exactly when the phrase's word list is a
contiguous run of the name's word list. -/
def containsRun {α : Type} [DecidableEq α] (needle : List α) : List α → Bool
  | [] => needle.isEmpty
  | x :: t => startsWithL needle (x :: t) || containsRun needle t

/-- A pattern string compiled to its word list, as patternToRegex compiles
a pattern to a phrase regex (normalizeForIncludes, then split). -/
def pat (s : String) : List Word := phraseWords (str s)

/-- One STRICT_BRAND_RULES entry: a brand id and its phrase patterns. -/
structure BrandRule where
  id : String
  patterns : List (List Word)
deriving DecidableEq

/-- STRICT_BRAND_RULES from lib/constants.js. -/
def STRICT_BRAND_RULES : List BrandRule :=
  [⟨"marriott", [pat "marriott"]⟩,
   ⟨"hilton", [pat "hilton"]⟩,
   ⟨"hyatt", [pat "hyatt"]⟩,
   ⟨"sheraton", [pat "sheraton"]⟩,
   ⟨"westin", [pat "westin"]⟩,
   ⟨"radisson", [pat "radisson"]⟩,
   ⟨"scandic", [pat "scandic"]⟩,
   ⟨"wyndham", [pat "wyndham"]⟩,
   ⟨"ramada", [pat "ramada"]⟩,
   ⟨"travelodge", [pat "travelodge"]⟩,
   ⟨"novotel", [pat "novotel"]⟩,
   ⟨"mercure", [pat "mercure"]⟩,
   ⟨"ibis", [pat "ibis"]⟩,
   ⟨"sofitel", [pat "sofitel"]⟩,
   ⟨"pullman", [pat "pullman"]⟩,
   ⟨"intercontinental", [pat "intercontinental"]⟩,
   ⟨"accor", [pat "accor"]⟩,
   ⟨"clarion", [pat "clarion"]⟩,
   ⟨"best-western", [pat "best western"]⟩,
   ⟨"holiday-inn", [pat "holiday inn"]⟩,
   ⟨"crowne-plaza", [pat "crowne plaza"]⟩,
   ⟨"premier-inn", [pat "premier inn"]⟩,
   ⟨"days-inn", [pat "days inn"]⟩,
   ⟨"hotel-indigo", [pat "hotel indigo", pat "indigo hotel"]⟩,
   ⟨"motel-6", [pat "motel 6", pat "motel six"]⟩,
   ⟨"comfort-inn", [pat "comfort inn"]⟩,
   ⟨"comfort-suites", [pat "comfort suites"]⟩,
   ⟨"quality-inn", [pat "quality inn"]⟩]

/-- Does a brand rule match a word list (some pattern occurs as a run)? -/
def brandRuleMatches (r : BrandRule) (ws : List Word) : Bool :=
  r.patterns.any (fun p => containsRun p ws)

/-- extractStrictBrands from lib/matching.js: the ids of the brand rules
matched by the name, in rule-table order (the source accumulates them in
an insertion-ordered set). -/
def extractStrictBrands (name : Str) : List String :=
  (STRICT_BRAND_RULES.filter (fun r => brandRuleMatches r (phraseWords name))).map (·.id)

/-- One KEY_GROUP_RULES entry: a group id plus strong and weak phrase
patterns. -/
structure KeyGroupRule where
  id : String
  strong : List (List Word)
  weak : List (List Word)
deriving DecidableEq

/-- KEY_GROUP_RULES from lib/constants.js. -/
def KEY_GROUP_RULES : List KeyGroupRule :=
  [⟨"airport", [pat "airport", pat "terminal"], []⟩,
   ⟨"station",
    [pat "train station", pat "railway station", pat "metro station", pat "subway station"],
    [pat "station"]⟩,
   ⟨"center",
    [pat "downtown", pat "city center", pat "city centre", pat "old town",
     pat "oldtown", pat "historic center", pat "historic centre"],
    [pat "central", pat "centre"]⟩,
   ⟨"waterfront",
    [pat "beach", pat "seafront", pat "oceanfront", pat "waterfront", pat "beachfront"],
    [pat "harbor", pat "harbour", pat "marina", pat "port"]⟩]

/-- The strong and weak key-group signal sets of one name. -/
structure KeySignals where
  strong : List String
  weak : List String
deriving DecidableEq

/-- Does some pattern of the list occur in the word list? -/
def anyPattern (ps : List (List Word)) (ws : List Word) : Bool :=
  ps.any (fun p => containsRun p ws)

/-- extractKeySignals from lib/matching.js: per group, a strong pattern
match lands the group id in the strong set; otherwise a weak pattern match
lands it in the weak set (the strong check short-circuits). -/
def extractKeySignals (name : Str) : KeySignals :=
  let ws := phraseWords name
  { strong := (KEY_GROUP_RULES.filter (fun g => anyPattern g.strong ws)).map (·.id),
    weak := (KEY_GROUP_RULES.filter
        (fun g => !(anyPattern g.strong ws) && anyPattern g.weak ws)).map (·.id) }

/-- One accommodation-type group: id, whether its strength is strong, and
its phrase patterns. -/
structure TypeGroupRule where
  id : String
  strongStrength : Bool
  patterns : List (List Word)
deriving DecidableEq

/-- Modelled from the spec: ACCOM_TYPE_GROUPS is imported by
lib/matching.js from lib/constants.js but the constants file in the
repository snapshot stops before the matching-constants section that
defines it; section 4.4 of the spec (and the test suite's copy, which is
annotated as matching constants.js) give the table: apartment, hostel and
guesthouse are strong groups; the catch-all hotel-like group is weak. -/
def ACCOM_TYPE_GROUPS : List TypeGroupRule :=
  [⟨"apartment", true,
    [pat "apartment", pat "apartments", pat "serviced apartment", pat "aparthotel", pat "residence"]⟩,
   ⟨"hostel", true, [pat "hostel", pat "youth hostel"]⟩,
   ⟨"guesthouse", true, [pat "guesthouse", pat "guest house", pat "pension"]⟩,
   ⟨"hotel", false,
    [pat "hotel", pat "inn", pat "lodge", pat "resort", pat "suite", pat "suites"]⟩]

/-- extractAccommodationTypeGroups from lib/matching.js: the matched type
group ids paired with their strength (true means strong). -/
def extractAccommodationTypeGroups (name : Str) : List (String × Bool) :=
  (ACCOM_TYPE_GROUPS.filter (fun g => anyPattern g.patterns (phraseWords name))).map
    (fun g => (g.id, g.strongStrength))

/-- LOCATION_QUALIFIERS from lib/matching.js. -/
def LOCATION_QUALIFIERS : List Word :=
  ["city", "centre", "center", "central", "downtown", "old", "town", "historic"].map str

/-- extractCoreTokens from lib/matching.js: match tokens of the name with
the candidate's city and country tokens and the location qualifiers
removed. -/
def extractCoreTokens (name city country : Str) : List Word :=
  let locationTokens := tokenizeName city ++ tokenizeName country ++ LOCATION_QUALIFIERS
  (tokenizeName name).filter (fun t => !(locationTokens.contains t))

/-- hasAnyOverlap from lib/matching.js, on id lists. -/
def hasAnyOverlap (a b : List String) : Bool :=
  a.any (fun v => b.contains v)

/-- intersectSets from lib/matching.js: members of the first set that the
second also holds, in the first set's order. -/
def interS (a b : List String) : List String :=
  a.filter (fun v => b.contains v)

/-- unionSets from lib/matching.js: the first set, then the members of the
second not already present. -/
def unionS (a b : List String) : List String :=
  a ++ b.filter (fun v => !(a.contains v))

/-- KEY_GROUP_BOOST_STRONG from lib/constants.js. -/
def KEY_GROUP_BOOST_STRONG : ℚ := qc 12 100

/-- KEY_GROUP_BOOST_WEAK from lib/constants.js. -/
def KEY_GROUP_BOOST_WEAK : ℚ := qc 6 100

/-- KEY_GROUP_BOOST_CAP from lib/constants.js. -/
def KEY_GROUP_BOOST_CAP : ℚ := qc 24 100

/-- MIN_SCORE_FOR_DOMAIN_BOOST from lib/constants.js. -/
def MIN_SCORE_FOR_DOMAIN_BOOST : ℚ := qc 55 100

/-- Modelled from the spec: TYPE_MATCH_BOOST is imported by
lib/matching.js from lib/constants.js but is missing from the snapshot's
constants file; section 4.4 of the spec and the test suite's copy give
the value 0.05. -/
def TYPE_MATCH_BOOST : ℚ := qc 5 100

/-- Modelled from the spec: TYPE_MISMATCH_PENALTY_STRONG, missing from
the snapshot's constants file; spec section 4.4 and the test suite's copy
give 0.18. -/
def TYPE_MISMATCH_PENALTY_STRONG : ℚ := qc 18 100

/-- Modelled from the spec: TYPE_MISMATCH_PENALTY_WEAK, missing from the
snapshot's constants file; spec section 4.4 and the test suite's copy
give 0.10. -/
def TYPE_MISMATCH_PENALTY_WEAK : ℚ := qc 10 100

/-- Modelled from the spec: TYPE_EFFECT_CAP, missing from the snapshot's
constants file; spec section 4.7 and the test suite's copy give 0.20. -/
def TYPE_EFFECT_CAP : ℚ := qc 20 100

/-- Modelled from the spec: HIT_DOMAIN_MIN_SCORE, missing from the
snapshot's constants file; spec section 4.11 and the comment at its use
site in lib/matching.js give 0.70. -/
def HIT_DOMAIN_MIN_SCORE : ℚ := qc 70 100

/-- Whitespace characters for the model of String.prototype.trim. -/
def isSpaceChar (c : Char) : Bool := c = ' ' || c = '\t' || c = '\n' || c = '\r'

/-- String.prototype.trim. -/
def trimStr (l : Str) : Str :=
  ((l.dropWhile isSpaceChar).reverse.dropWhile isSpaceChar).reverse

/-- The separator class of the location-suffix regex: comma, hyphen,
en dash, em dash. -/
def isDashComma (c : Char) : Bool := c = ',' || c = '-' || c = '–' || c = '—'

/-- Splits a string around the LAST comma/dash character, if any: the
location-suffix regex of stripTrailingLocationSuffix can only match at
the last such character, since its captured tail excludes the class. -/
def lastDashSplit : Str → Option (Str × Str)
  | [] => none
  | c :: rest =>
    match lastDashSplit rest with
    | some (b, a) => some (c :: b, a)
    | none => if isDashComma c then some ([], rest) else none

/-- Result record of stripTrailingLocationSuffix. -/
structure StripResult where
  stripped : Str
  wasStripped : Bool
  strippedSuffix : Str
deriving DecidableEq

/-- stripTrailingLocationSuffix from lib/matching.js: strips a suffix
after the last comma/dash when every suffix token is a candidate
city/country token or a location qualifier and at least one genuinely
matches the city/country. -/
def stripTrailingLocationSuffix (query candidateCity candidateCountry : Str) : StripResult :=
  let original := trimStr query
  if original.isEmpty || (candidateCity.isEmpty && candidateCountry.isEmpty) then
    ⟨original, false, []⟩
  else
    match lastDashSplit original with
    | none => ⟨original, false, []⟩
    | some (before, tail) =>
      if tail.isEmpty then ⟨original, false, []⟩
      else
        let suffix := trimStr tail
        let suffixTokens := tokenizeName suffix
        if suffixTokens.isEmpty then ⟨original, false, []⟩
        else
          let locMatches := fun (location : Str) =>
            if location.isEmpty then false
            else
              let locationTokens := tokenizeName location
              if locationTokens.isEmpty then false
              else
                suffixTokens.all
                    (fun st => locationTokens.contains st || LOCATION_QUALIFIERS.contains st)
                  && suffixTokens.any (fun st => locationTokens.contains st)
          if locMatches candidateCity || locMatches candidateCountry then
            ⟨trimStr before, true, suffix⟩
          else ⟨original, false, []⟩

/-- Full scoring breakdown of one query/candidate pair, the return object
of scoreNameMatchDetailed. -/
structure MatchDetails where
  hardMismatch : Bool
  brandMismatch : Bool
  keyConflict : Bool
  qBrands : List String
  cBrands : List String
  qKeyStrong : List String
  qKeyWeak : List String
  cKeyStrong : List String
  cKeyWeak : List String
  keyOverlapAny : List String
  keyOverlapStrong : List String
  keyGroupBoost : ℚ
  qTypeGroups : List String
  cTypeGroups : List String
  typeOverlap : List String
  typeBoost : ℚ
  typePenalty : ℚ
  coverage : ℚ
  containsBoost : ℚ
  baseScore : ℚ
  qCoreTokens : List Word
  cCoreTokens : List Word
  coreOverlapAny : Bool
  onlyLocationOverlap : Bool
deriving DecidableEq

/-- scoreNameMatchDetailed from lib/matching.js: brand check, key-group
check, token coverage, core-identity overlap, bidirectional contains
boost, accommodation-type signal, and the combined base score and hard
mismatch verdict. -/
def scoreNameMatchDetailed (query candidate city country : Str) : MatchDetails :=
  let qNorm := normalizeForIncludes query
  let cNorm := normalizeForIncludes candidate
  let qBrands := extractStrictBrands qNorm
  let cBrands := extractStrictBrands cNorm
  let brandMismatch := !qBrands.isEmpty && !(hasAnyOverlap qBrands cBrands)
  let qKey := extractKeySignals qNorm
  let cKey := extractKeySignals cNorm
  let overlapStrong := interS qKey.strong cKey.strong
  let keyConflict := !qKey.strong.isEmpty && !cKey.strong.isEmpty && overlapStrong.isEmpty
  let qAny := unionS qKey.strong qKey.weak
  let cAny := unionS cKey.strong cKey.weak
  let overlapAny := interS qAny cAny
  let keyGroupBoost0 : ℚ := overlapAny.foldl (fun acc gid =>
      rAdd acc (if qKey.strong.contains gid && cKey.strong.contains gid then
        KEY_GROUP_BOOST_STRONG else KEY_GROUP_BOOST_WEAK)) 0
  let keyGroupBoost := rMin KEY_GROUP_BOOST_CAP keyGroupBoost0
  let qTokens := tokenizeName query
  let cTokens := tokenizeName candidate
  let hit := qTokens.countP (fun t => cTokens.contains t)
  let coverage : ℚ := if qTokens.length ≠ 0 then rDivNat (qNat hit) qTokens.length else 0
  let qCoreTokens := extractCoreTokens query city country
  let cCoreTokens := extractCoreTokens candidate city country
  let coreHit := qCoreTokens.countP (fun t => cCoreTokens.contains t)
  let coreOverlapAny := decide (0 < coreHit)
  let onlyLocationOverlap :=
    decide (0 < hit) && decide (0 < qCoreTokens.length) && !coreOverlapAny
  let qContainsC := containsRun cNorm qNorm && decide (6 ≤ cNorm.length)
    && decide (2 ≤ (tokenizeRaw candidate).length)
  let cContainsQ := containsRun qNorm cNorm && decide (6 ≤ qNorm.length)
  let containsBoost : ℚ := if qContainsC || cContainsQ then qc 25 100 else 0
  let qType := extractAccommodationTypeGroups qNorm
  let cType := extractAccommodationTypeGroups cNorm
  let qGroups := qType.map Prod.fst
  let cGroups := cType.map Prod.fst
  let typeOverlap := qGroups.filter (fun g => cGroups.contains g)
  let qHasStrongNonHotel := qType.any (fun g => g.2 && !(g.1 == "hotel"))
  let cHasStrongNonHotel := cType.any (fun g => g.2 && !(g.1 == "hotel"))
  let typeBoost1 : ℚ :=
    if !qGroups.isEmpty && !cGroups.isEmpty && !typeOverlap.isEmpty then TYPE_MATCH_BOOST else 0
  let typePenalty1 : ℚ :=
    if !qGroups.isEmpty && !cGroups.isEmpty && typeOverlap.isEmpty then
      (if qHasStrongNonHotel && cHasStrongNonHotel then TYPE_MISMATCH_PENALTY_STRONG
       else if qHasStrongNonHotel || cHasStrongNonHotel then TYPE_MISMATCH_PENALTY_WEAK
       else 0)
    else 0
  let typeBoost := rMin TYPE_EFFECT_CAP (rMax 0 typeBoost1)
  let typePenalty := rMin TYPE_EFFECT_CAP (rMax 0 typePenalty1)
  let baseScore := rMax 0
    (rSub (rAdd (rAdd (rAdd coverage containsBoost) keyGroupBoost) typeBoost) typePenalty)
  let hardMismatch := brandMismatch || keyConflict
  { hardMismatch := hardMismatch
    brandMismatch := brandMismatch
    keyConflict := keyConflict
    qBrands := qBrands
    cBrands := cBrands
    qKeyStrong := qKey.strong
    qKeyWeak := qKey.weak
    cKeyStrong := cKey.strong
    cKeyWeak := cKey.weak
    keyOverlapAny := overlapAny
    keyOverlapStrong := overlapStrong
    keyGroupBoost := keyGroupBoost
    qTypeGroups := qGroups
    cTypeGroups := cGroups
    typeOverlap := typeOverlap
    typeBoost := typeBoost
    typePenalty := typePenalty
    coverage := coverage
    containsBoost := containsBoost
    baseScore := baseScore
    qCoreTokens := qCoreTokens
    cCoreTokens := cCoreTokens.dedup
    coreOverlapAny := coreOverlapAny
    onlyLocationOverlap := onlyLocationOverlap }

/-- scoreNameMatch from lib/matching.js: zero on hard mismatch, the base
score otherwise. -/
def scoreNameMatch (query candidate : Str) : ℚ :=
  let detailed := scoreNameMatchDetailed query candidate [] []
  if detailed.hardMismatch then 0 else detailed.baseScore

/-- Lowercases and removes one leading www. as domainsEquivalent and
getHostNoWww do. -/
def stripWwwLower (s : Str) : Str :=
  let low := s.map asciiToLower
  if startsWithL (str "www.") low then low.drop 4 else low

/-- Does the first list occur at the end of the second? -/
def endsWithL {α : Type} [DecidableEq α] (suf l : List α) : Bool :=
  startsWithL suf.reverse l.reverse

/-- domainsEquivalent from lib/matching.js: equal after lowercasing and
www-stripping, or one a dot-separated subdomain of the other. -/
def domainsEquivalent (a b : Str) : Bool :=
  let da := stripWwwLower a
  let db := stripWwwLower b
  if da.isEmpty || db.isEmpty then false
  else da == db || endsWithL ('.' :: db) da || endsWithL ('.' :: da) db

/-- computeDomainBoost from lib/matching.js: zero without a domain match
or below the minimum score; otherwise 0.9 times the base score, capped
at 0.7. -/
def computeDomainBoost (domainMatch : Bool) (baseScore : ℚ) : ℚ :=
  if !domainMatch then 0
  else if baseScore < MIN_SCORE_FOR_DOMAIN_BOOST then 0
  else rMin (qc 7 10) (rMul (qc 9 10) baseScore)

/-- computeConfidence from lib/matching.js: zero on hard mismatch, else
the base score capped at 0.95, plus 0.15 re-capped at 0.95 when the
domain matches and the base score is at least 0.65, clamped to be
nonnegative. -/
def computeConfidence (domainMatch : Bool) (baseScore : ℚ) (hardMismatch : Bool) : ℚ :=
  if hardMismatch then 0
  else
    let conf := rMin (qc 95 100) baseScore
    let conf2 := if domainMatch && decide (qc 65 100 ≤ baseScore) then
        rMin (qc 95 100) (rAdd conf (qc 15 100))
      else conf
    rMax 0 (rMin (qc 95 100) conf2)

/-- The character list after the first scheme separator ://, if any. -/
def afterSchemeSep : Str → Option Str
  | [] => none
  | c :: rest =>
    if startsWithL (str "://") (c :: rest) then some ((c :: rest).drop 3)
    else afterSchemeSep rest

/-- getHostNoWww from lib/normalize.js.  Models new URL(s).hostname (an
external platform builtin) for absolute URLs of the scheme://host shape:
the host runs from the scheme separator to the first slash, question
mark, hash or port colon, skipping any userinfo; URL-constructor failures
(no scheme separator) are caught and yield the empty string, and the
result is lowercased with a leading www. removed. -/
def getHostNoWww (s : Str) : Str :=
  match afterSchemeSep s with
  | none => []
  | some rest =>
    let hostPort := rest.takeWhile (fun c => !(c = '/' || c = '?' || c = '#'))
    let hostUser := hostPort.takeWhile (fun c => !(c = ':'))
    let host := if hostUser.contains '@' then
        (hostUser.reverse.takeWhile (fun c => !(c = '@'))).reverse
      else hostUser
    stripWwwLower host

/-- Zero-pads a natural number below 1000 to three digits. -/
def pad3 (n : Nat) : String :=
  if n < 10 then "00" ++ toString n
  else if n < 100 then "0" ++ toString n
  else toString n

/-- Number.prototype.toFixed(3) on the nonnegative rationals produced by
the scorer (base scores and confidences): round half up to a thousandth
and print with exactly three decimals. -/
def toFixed3 (q : ℚ) : String :=
  let m := (rAdd (rMul q (qNat 1000)) (qc 1 2)).floor
  let n := m.toNat
  toString (n / 1000) ++ "." ++ pad3 (n % 1000)

/-- A cached token record (the TokenRecord of the data model), as read
from the key-value store.  JavaScript null or absent string fields are
modelled as empty strings; the optional diagnostic fields carry their
presence in an Option. -/
structure TokenObj where
  property_token : Str := []
  property_name : Str := []
  city : Str := []
  country : Str := []
  link : Str := []
  linkHost : Str := []
  nameScore : ℚ := 0
  confidence : ℚ := 0
  domainMatch : Bool := false
  officialDomain : Str := []
  coreOverlapAny : Bool := false
  matchDetails : Option MatchDetails := none
  fromCtx : Bool := false
  hasCandidateSummary : Bool := false
deriving DecidableEq

/-- The refreshed fields validateCachedToken returns on success, for the
caller to merge into the record. -/
structure TokenUpdates where
  linkHost : Str
  nameScore : ℚ
  confidence : ℚ
  domainMatch : Bool
  coreOverlapAny : Bool
  matchDetails : MatchDetails
  officialDomain : Str
deriving DecidableEq

/-- Result of validateCachedToken.  The source returns an ad-hoc record
with an ok flag; its three shapes (missing property name, rejection with
a reason, success with updates) are the three constructors here. -/
inductive ValidateResult where
  | missingName : ValidateResult
  | rejected (reason : String) (details : MatchDetails) (confidence baseScore : ℚ)
      (domainMatch coreOverlapAny : Bool) (queryForScore : Str) : ValidateResult
  | accepted (updates : TokenUpdates) (confidence baseScore : ℚ)
      (domainMatch coreOverlapAny : Bool) (queryForScore : Str)
      (details : MatchDetails) : ValidateResult
deriving DecidableEq

/-- The ok flag of a validation result. -/
def ValidateResult.isOk : ValidateResult → Bool
  | .accepted _ _ _ _ _ _ _ => true
  | _ => false

/-- The reason field of a validation result. -/
def ValidateResult.reasonOf : ValidateResult → Option String
  | .missingName => some "missing_property_name"
  | .rejected r _ _ _ _ _ _ => some r
  | .accepted _ _ _ _ _ _ _ => none

/-- The updates field of a validation result. -/
def ValidateResult.updatesOf : ValidateResult → Option TokenUpdates
  | .accepted u _ _ _ _ _ _ => some u
  | _ => none

/-- validateCachedToken from lib/matching.js: re-scores the cached name
against the current query (location-suffix-stripped against the cached
record's city and country), rejects on hard mismatch, applies the
stricter base-score and identity-overlap gates for the hit-domain source
and the confidence gate for every other source, and on success returns
the refreshed fields. -/
def validateCachedToken (hotelName officialDomain : Str) (t : TokenObj)
    (source : String) : ValidateResult :=
  let candidateName := t.property_name
  if candidateName.isEmpty then .missingName
  else
    let linkHost := if !t.linkHost.isEmpty then t.linkHost else getHostNoWww t.link
    let domainMatch :=
      if !officialDomain.isEmpty then domainsEquivalent linkHost officialDomain else false
    let locationStrip := stripTrailingLocationSuffix hotelName t.city t.country
    let queryForScore := locationStrip.stripped
    let details := scoreNameMatchDetailed queryForScore candidateName t.city t.country
    let baseScore := details.baseScore
    let coreOverlapAny := details.coreOverlapAny
    let domainMatchForConfidence := domainMatch && coreOverlapAny
    let confidence := computeConfidence domainMatchForConfidence baseScore details.hardMismatch
    if details.hardMismatch then
      .rejected "hard_mismatch" details confidence baseScore domainMatch coreOverlapAny
        queryForScore
    else if source == "hit-domain" then
      if baseScore < HIT_DOMAIN_MIN_SCORE then
        .rejected ("domain_hit_but_name_too_low:" ++ toFixed3 baseScore) details confidence
          baseScore domainMatch coreOverlapAny queryForScore
      else if !coreOverlapAny then
        .rejected "domain_hit_no_identity_overlap" details confidence baseScore domainMatch
          coreOverlapAny queryForScore
      else
        .accepted ⟨linkHost, baseScore, confidence, domainMatch, coreOverlapAny, details,
          officialDomain⟩ confidence baseScore domainMatch coreOverlapAny queryForScore details
    else
      if confidence < qc 55 100 then
        .rejected ("confidence_too_low:" ++ toFixed3 confidence) details confidence baseScore
          domainMatch coreOverlapAny queryForScore
      else
        .accepted ⟨linkHost, baseScore, confidence, domainMatch, coreOverlapAny, details,
          officialDomain⟩ confidence baseScore domainMatch coreOverlapAny queryForScore details

/-- One upstream search candidate.  Absent fields are empty strings. -/
structure Candidate where
  name : Str := []
  city : Str := []
  country : Str := []
  link : Str := []
  property_token : Str := []
deriving DecidableEq

/-- One non-skipped allCandidates entry of pickBestProperty.  The
linkHost field is not part of the source's entry object; it is carried
here so that the best-tracking step can reuse the per-candidate
computation. -/
structure CandScored where
  name : Str
  city : Str
  baseScore : ℚ
  mainBaseScore : ℚ
  altBaseScore : Option ℚ
  altUsed : Bool
  domainMatch : Bool
  domainBoost : ℚ
  finalScore : ℚ
  confidence : ℚ
  locationSuffixStripped : Bool
  linkHost : Str
  details : MatchDetails
deriving DecidableEq

/-- One allCandidates entry: a hard-mismatch skip record or a scored
candidate. -/
inductive CandEntry where
  | skipped (name city : Str) (reason : String) (details : MatchDetails) : CandEntry
  | scored (c : CandScored) : CandEntry
deriving DecidableEq

/-- Is the entry a skip record? -/
def CandEntry.isSkipped : CandEntry → Bool
  | .skipped _ _ _ _ => true
  | .scored _ => false

/-- The per-candidate body of pickBestProperty's loop: location-aware
scoring, hard-mismatch skipping with a reason, optional altQuery
rescoring that can only raise the effective base score, the
identity-gated domain boost and the final score and confidence. -/
def candEval (hotelName officialDomain altQuery : Str) (p : Candidate) : CandEntry :=
  let locationStrip := stripTrailingLocationSuffix hotelName p.city p.country
  let queryForScore := locationStrip.stripped
  let matchDetails := scoreNameMatchDetailed queryForScore p.name p.city p.country
  let linkHost := getHostNoWww p.link
  let domainMatch :=
    if !officialDomain.isEmpty then domainsEquivalent linkHost officialDomain else false
  if matchDetails.hardMismatch then
    .skipped p.name p.city
      (if matchDetails.brandMismatch then "brand_mismatch"
       else if matchDetails.keyConflict then "key_conflict" else "hard_mismatch")
      matchDetails
  else
    let mainBase := matchDetails.baseScore
    let altRes :=
      if altQuery.isEmpty then none
      else some (scoreNameMatchDetailed altQuery p.name p.city p.country)
    let altBaseScore := altRes.map (·.baseScore)
    let chosen : ℚ × Bool :=
      match altRes with
      | some alt =>
        if !alt.hardMismatch && decide (mainBase < alt.baseScore) then (alt.baseScore, true)
        else (mainBase, false)
      | none => (mainBase, false)
    let baseScore := chosen.1
    let altUsed := chosen.2
    let coreOverlapAny := matchDetails.coreOverlapAny
    let domainBoostAllowed := domainMatch && coreOverlapAny
    let domainBoost := computeDomainBoost domainBoostAllowed baseScore
    let finalScore := rAdd baseScore domainBoost
    let domainMatchForConfidence := domainMatch && coreOverlapAny
    let confidence := computeConfidence domainMatchForConfidence baseScore matchDetails.hardMismatch
    .scored ⟨p.name, p.city, baseScore, mainBase, altBaseScore, altUsed, domainMatch,
      domainBoost, finalScore, confidence, locationStrip.wasStripped, linkHost, matchDetails⟩

/-- The accumulator of pickBestProperty's loop. -/
structure PickState where
  best : Option Candidate := none
  bestScore : ℚ := qc (-1) 1
  bestNameScore : ℚ := 0
  bestDomainMatch : Bool := false
  bestLinkHost : Str := []
  bestMatchDetails : Option MatchDetails := none
  bestConfidence : ℚ := 0
  allCandidates : List CandEntry := []
deriving DecidableEq

/-- One iteration of pickBestProperty's loop: push the entry, and on a
strictly greater final score take the candidate as the new best. -/
def pickStep (hotelName officialDomain altQuery : Str) (st : PickState) (p : Candidate) :
    PickState :=
  match candEval hotelName officialDomain altQuery p with
  | .skipped n c r d => { st with allCandidates := st.allCandidates ++ [.skipped n c r d] }
  | .scored sc =>
    let st1 := { st with allCandidates := st.allCandidates ++ [.scored sc] }
    if st.bestScore < sc.finalScore then
      { st1 with
        best := some p
        bestScore := sc.finalScore
        bestNameScore := sc.baseScore
        bestDomainMatch := sc.domainMatch
        bestLinkHost := sc.linkHost
        bestMatchDetails := some sc.details
        bestConfidence := sc.confidence }
    else st1

/-- The return object of pickBestProperty. -/
structure PickResult where
  best : Option Candidate
  bestScore : ℚ
  bestNameScore : ℚ
  bestDomainMatch : Bool
  bestLinkHost : Str
  confidence : ℚ
  matchDetails : Option MatchDetails
  allCandidates : List CandEntry
deriving DecidableEq

/-- pickBestProperty from lib/matching.js: null on an empty candidate
list, else the loop result over all candidates. -/
def pickBestProperty (properties : List Candidate) (hotelName officialDomain : Str)
    (altQuery0 : Str) : Option PickResult :=
  if properties.isEmpty then none
  else
    let altQuery := trimStr altQuery0
    let st := properties.foldl (pickStep hotelName officialDomain altQuery) {}
    some ⟨st.best, st.bestScore, st.bestNameScore, st.bestDomainMatch, st.bestLinkHost,
      st.bestConfidence, st.bestMatchDetails, st.allCandidates⟩

/-- The main-query scoring details pickBestProperty computes for one
candidate (its location-suffix-stripped query against the candidate's
name). -/
def mainQueryDetails (hotelName : Str) (p : Candidate) : MatchDetails :=
  scoreNameMatchDetailed (stripTrailingLocationSuffix hotelName p.city p.country).stripped
    p.name p.city p.country

/-- Is the candidate hard-mismatched against the main query? -/
def mainHard (hotelName : Str) (p : Candidate) : Bool :=
  (mainQueryDetails hotelName p).hardMismatch

/-- TOKEN_TTL_SEC from lib/constants.js: 30 days. -/
def TOKEN_TTL_SEC : Nat := 30 * 24 * 60 * 60

/-- TOKEN_TTL_NO_DOMAIN_SEC from lib/constants.js: 7 days. -/
def TOKEN_TTL_NO_DOMAIN_SEC : Nat := 7 * 24 * 60 * 60

/-- A dispatched background cache write: one ctx.waitUntil(kvPutJson ...)
call of the compare handler, identified by its logical key tier, payload
and TTL.  The platform runs these detached from the response; the model
gives them no result channel, matching the source, where nothing ever
awaits them. -/
inductive CacheWrite where
  | nameW (t : TokenObj) (ttlSec : Nat) : CacheWrite
  | domainW (t : TokenObj) (ttlSec : Nat) : CacheWrite
  | bookingW (t : TokenObj) (ttlSec : Nat) : CacheWrite
deriving DecidableEq

/-- The inputs of one token-resolution attempt of the compare handler:
the request parameters and a snapshot of what each cache key holds.  The
kvGetJson calls of the source are modelled as reads of this snapshot;
none is a cache miss.  An empty officialDomain (or bookingSlug) means the
domain (or booking slug) key does not exist, as in the source. -/
structure ResolveEnv where
  refresh : Bool := false
  hotelName : Str := []
  officialDomain : Str := []
  bookingSlug : Str := []
  hasCtxKey : Bool := false
  ctxProperties : Option (List Candidate) := none
  domainEntry : Option TokenObj := none
  bookingEntry : Option TokenObj := none
  nameEntry : Option TokenObj := none
  liveProperties : Option (List Candidate) := none
deriving DecidableEq

/-- The altQuery the handler derives from the booking slug: dashes become
spaces. -/
def envAltQuery (env : ResolveEnv) : Str :=
  env.bookingSlug.map (fun c => if c = '-' then ' ' else c)

/-- Hard-mismatch flag of an optional details record, as the optional
chaining picked.matchDetails?.hardMismatch reads it. -/
def mdHard : Option MatchDetails → Bool
  | some d => d.hardMismatch
  | none => false

/-- Does the current tokenObj carry a property token
(tokenObj?.property_token is truthy)? -/
def hasTok : Option TokenObj → Bool
  | some t => !t.property_token.isEmpty
  | none => false

/-- Merges validator updates into a record, as Object.assign(tokenObj,
v.updates) does. -/
def applyUpdates (t : TokenObj) (u : TokenUpdates) : TokenObj :=
  { t with
    linkHost := u.linkHost
    nameScore := u.nameScore
    confidence := u.confidence
    domainMatch := u.domainMatch
    coreOverlapAny := u.coreOverlapAny
    matchDetails := some u.matchDetails
    officialDomain := u.officialDomain }

/-- The record the handler builds from an accepted context-tier pick. -/
def ctxTokenObj (env : ResolveEnv) (picked : PickResult) (b : Candidate) : TokenObj :=
  { property_token := b.property_token
    property_name := b.name
    city := b.city
    country := b.country
    link := b.link
    linkHost := getHostNoWww b.link
    nameScore := picked.bestNameScore
    confidence := picked.confidence
    domainMatch := picked.bestDomainMatch
    officialDomain := env.officialDomain
    fromCtx := true
    hasCandidateSummary := true }

/-- The record the handler builds from a live-search pick. -/
def liveTokenObj (env : ResolveEnv) (picked : PickResult) (b : Candidate) : TokenObj :=
  { property_token := b.property_token
    property_name := b.name
    city := b.city
    country := b.country
    link := b.link
    linkHost := getHostNoWww b.link
    nameScore := picked.bestNameScore
    confidence := picked.confidence
    domainMatch := picked.bestDomainMatch
    officialDomain := env.officialDomain
    matchDetails := picked.matchDetails
    hasCandidateSummary := true }

/-- The mutable resolution state of the handler: the current tokenObj,
the tokenCacheDetail string, and the background writes dispatched so
far. -/
structure RState where
  tokenObj : Option TokenObj
  detail : String
  writes : List CacheWrite
deriving DecidableEq

/-- One validated cache tier of the handler (domain, booking or name):
skipped when a token is already held or the key is absent; otherwise the
entry is fetched, a token-bearing entry is validated against the current
query, acceptance merges the updates and sets the tier detail, rejection
clears the tokenObj; the name tier additionally backfills the domain key
on acceptance when a domain is known. -/
def tierValidate (hotelName officialDomain : Str) (entry : Option TokenObj) (source : String)
    (keyPresent backfillDomainOnOk : Bool) (st : RState) : RState :=
  if !(hasTok st.tokenObj) && keyPresent then
    match entry with
    | none => { st with tokenObj := none }
    | some tk =>
      if !tk.property_token.isEmpty then
        match validateCachedToken hotelName officialDomain tk source with
        | .accepted u _ _ _ _ _ _ =>
          let merged := applyUpdates tk u
          { tokenObj := some merged
            detail := source
            writes := st.writes ++
              (if backfillDomainOnOk && !officialDomain.isEmpty then
                [CacheWrite.domainW merged TOKEN_TTL_SEC]
              else []) }
        | v =>
          { st with
            tokenObj := none
            detail := "invalid-" ++ source ++ ":" ++ (v.reasonOf.getD "") }
      else { st with tokenObj := some tk }
  else st

/-- Terminal outcome of one resolution attempt: a resolved record with
the tier detail that produced it, an upstream search failure, or no
resolvable property. -/
inductive ResolveOutcome where
  | resolved (detail : String) (t : TokenObj) : ResolveOutcome
  | searchFailed : ResolveOutcome
  | noProperty : ResolveOutcome
deriving DecidableEq

/-- Result of one resolution attempt: the outcome, the dispatched
background writes, and whether a live upstream search was performed. -/
structure ResolveResult where
  outcome : ResolveOutcome
  writes : List CacheWrite
  liveCalled : Bool
deriving DecidableEq

/-- The live-search miss branch of the handler: upstream failure, no
usable winner, or a resolved record plus the confidence-tiered cache
writes. -/
def liveBranch (env : ResolveEnv) (st : RState) : ResolveResult :=
  match env.liveProperties with
  | none => ⟨.searchFailed, st.writes, true⟩
  | some props =>
    match pickBestProperty props env.hotelName env.officialDomain (envAltQuery env) with
    | none => ⟨.noProperty, st.writes, true⟩
    | some picked =>
      match picked.best with
      | none => ⟨.noProperty, st.writes, true⟩
      | some b =>
        if b.property_token.isEmpty then ⟨.noProperty, st.writes, true⟩
        else
          let tObj := liveTokenObj env picked b
          let ws :=
            if decide (qc 65 100 ≤ picked.confidence) then
              [CacheWrite.nameW tObj
                (if decide (qc 80 100 ≤ picked.confidence) then TOKEN_TTL_SEC
                 else TOKEN_TTL_NO_DOMAIN_SEC)]
              ++ (if !env.officialDomain.isEmpty && decide (qc 75 100 ≤ picked.confidence) then
                  [CacheWrite.domainW tObj TOKEN_TTL_SEC]
                else [])
              ++ (if !env.bookingSlug.isEmpty && decide (qc 70 100 ≤ picked.confidence) then
                  [CacheWrite.bookingW tObj TOKEN_TTL_NO_DOMAIN_SEC]
                else [])
            else []
          ⟨.resolved "miss" tObj, st.writes ++ ws, true⟩

/-- The context tier of the handler: run the Property Picker over the
prefetched candidates; accept when the winner has a token, the confidence
reaches 0.55 and there is no hard mismatch; on acceptance with confidence
at least 0.75 dispatch the name / domain / booking backfills. -/
def ctxTier (env : ResolveEnv) (st0 : RState) : RState :=
  if env.hasCtxKey then
    match env.ctxProperties with
    | none => st0
    | some props =>
      if props.isEmpty then st0
      else
        match pickBestProperty props env.hotelName env.officialDomain (envAltQuery env) with
        | none => st0
        | some picked =>
          match picked.best with
          | none => st0
          | some b =>
            if !b.property_token.isEmpty && decide (qc 55 100 ≤ picked.confidence)
                && !(mdHard picked.matchDetails) then
              let tObj := ctxTokenObj env picked b
              let ws :=
                if decide (qc 75 100 ≤ picked.confidence) then
                  [CacheWrite.nameW tObj TOKEN_TTL_NO_DOMAIN_SEC]
                  ++ (if !env.officialDomain.isEmpty then
                      [CacheWrite.domainW tObj TOKEN_TTL_SEC]
                    else [])
                  ++ (if !env.bookingSlug.isEmpty then
                      [CacheWrite.bookingW tObj TOKEN_TTL_NO_DOMAIN_SEC]
                    else [])
                else []
              { tokenObj := some tObj, detail := "ctx-hit", writes := ws }
            else st0
  else st0

/-- The token-resolution cascade of the compare handler (routes section
marked Resolve property_token): without the refresh flag, the context
tier, then the validated domain, booking and name tiers; a held token
short-circuits every later tier; otherwise the live-search miss
branch. -/
def resolveToken (env : ResolveEnv) : ResolveResult :=
  let st0 : RState := ⟨none, "miss", []⟩
  let st1 :=
    if env.refresh then st0
    else
      let stc := ctxTier env st0
      let std := tierValidate env.hotelName env.officialDomain env.domainEntry "hit-domain"
        (!env.officialDomain.isEmpty) false stc
      let stb := tierValidate env.hotelName env.officialDomain env.bookingEntry "hit-booking"
        (!env.bookingSlug.isEmpty) false std
      tierValidate env.hotelName env.officialDomain env.nameEntry "hit-name" true true stb
  match st1.tokenObj with
  | some t =>
    if !t.property_token.isEmpty then ⟨.resolved st1.detail t, st1.writes, false⟩
    else liveBranch env st1
  | none => liveBranch env st1

/-- The detail string of a resolved outcome. -/
def servedDetail (r : ResolveResult) : Option String :=
  match r.outcome with
  | .resolved d _ => some d
  | _ => none

/-- Acceptance of the context tier, stated as the spec states it: the
pick over the session candidates has a winner carrying a property token,
with confidence at least 0.55 and no hard mismatch. -/
def ctxAccept (env : ResolveEnv) : Bool :=
  env.hasCtxKey &&
  (match env.ctxProperties with
   | some props =>
     (match pickBestProperty props env.hotelName env.officialDomain (envAltQuery env) with
      | some picked =>
        (match picked.best with
         | some b =>
           !b.property_token.isEmpty && decide (qc 55 100 ≤ picked.confidence)
             && !(mdHard picked.matchDetails)
         | none => false)
      | none => false)
   | none => false)

/-- Acceptance of one validated cache tier: the entry exists, carries a
token, and passes validateCachedToken for the given source. -/
def tierAccept (hotelName officialDomain : Str) (entry : Option TokenObj)
    (source : String) : Bool :=
  match entry with
  | some tk =>
    !tk.property_token.isEmpty && (validateCachedToken hotelName officialDomain tk source).isOk
  | none => false

/-- Acceptance of the domain-keyed tier. -/
def domainAccept (env : ResolveEnv) : Bool :=
  !env.officialDomain.isEmpty
    && tierAccept env.hotelName env.officialDomain env.domainEntry "hit-domain"

/-- Acceptance of the booking-slug tier. -/
def bookingAccept (env : ResolveEnv) : Bool :=
  !env.bookingSlug.isEmpty
    && tierAccept env.hotelName env.officialDomain env.bookingEntry "hit-booking"

/-- Acceptance of the name-keyed tier. -/
def nameAccept (env : ResolveEnv) : Bool :=
  tierAccept env.hotelName env.officialDomain env.nameEntry "hit-name"

/-- A concrete environment with no session key, no cache entries and no live
results, used to instantiate the tier-ordering theorem. -/
def c9env : ResolveEnv := ⟨false, [], [], [], false, none, none, none, none, none⟩

theorem qc_95_eq : qc 95 100 = 0.95 := by norm_num [qc, Rat.mkRat_eq_div]

theorem qc_65_eq : qc 65 100 = 0.65 := by norm_num [qc, Rat.mkRat_eq_div]

theorem qc_15_eq : qc 15 100 = 0.15 := by norm_num [qc, Rat.mkRat_eq_div]

theorem qc_55_eq : qc 55 100 = 0.55 := by norm_num [qc, Rat.mkRat_eq_div]

theorem qc_25_eq : qc 25 100 = 0.25 := by norm_num [qc, Rat.mkRat_eq_div]

theorem qc_7_10_eq : qc 7 10 = 0.7 := by norm_num [qc, Rat.mkRat_eq_div]

theorem qc_9_10_eq : qc 9 10 = 0.9 := by norm_num [qc, Rat.mkRat_eq_div]

theorem qc_neg1_eq : qc (-1) 1 = -1 := by norm_num [qc, Rat.mkRat_eq_div]

theorem MIN_SCORE_FOR_DOMAIN_BOOST_eq : MIN_SCORE_FOR_DOMAIN_BOOST = 0.55 := by
  norm_num [MIN_SCORE_FOR_DOMAIN_BOOST, qc, Rat.mkRat_eq_div]

theorem HIT_DOMAIN_MIN_SCORE_eq : HIT_DOMAIN_MIN_SCORE = 0.70 := by
  norm_num [HIT_DOMAIN_MIN_SCORE, qc, Rat.mkRat_eq_div]

/-- Unfolded form of computeConfidence with library operations. -/
theorem computeConfidence_eq (d : Bool) (b : ℚ) (h : Bool) :
    computeConfidence d b h =
      if h then 0
      else
        max 0 (min 0.95
          (if d && decide (0.65 ≤ b) then min 0.95 (min 0.95 b + 0.15) else min 0.95 b)) := by
  unfold computeConfidence
  cases h with
  | true => rfl
  | false =>
    simp only [Bool.false_eq_true, if_false, rMin_eq, rMax_eq, rAdd_eq, qc_95_eq, qc_65_eq,
      qc_15_eq]

/-- C3 counterexample: the claim quantifies over all inputs, but at
domainMatchEligible false, baseScore -1, hardMismatch false the code
clamps the result to 0, while the claimed formula min(0.95, baseScore)
gives -1. -/
theorem claim_C3_counterexample :
    computeConfidence false (-1) false ≠ min (0.95 : ℚ) (-1) := by
  rw [computeConfidence_eq]
  simp only [Bool.false_and, Bool.false_eq_true, if_false]
  norm_num

/-- C3 (amended): computeConfidence returns exactly 0 when hardMismatch
is true; otherwise it returns min(0.95, baseScore), plus 0.15 re-capped
at 0.95 when domainMatchEligible holds and baseScore is at least 0.65,
the whole clamped below at 0 (so the claimed un-clamped formula holds
whenever baseScore is nonnegative); and the result always lies in
the closed interval from 0 to 0.95. -/
theorem claim_C3_amended (d : Bool) (b : ℚ) (h : Bool) :
    (h = true → computeConfidence d b h = 0)
    ∧ (h = false → 0 ≤ b →
        computeConfidence d b h =
          if d = true ∧ 0.65 ≤ b then min 0.95 (min 0.95 b + 0.15) else min 0.95 b)
    ∧ 0 ≤ computeConfidence d b h ∧ computeConfidence d b h ≤ 0.95 := by
  have hb95 : (0:ℚ) ≤ 0.95 := by norm_num
  refine ⟨fun hh => by rw [computeConfidence_eq, if_pos hh], ?_, ?_, ?_⟩
  · intro hh hb
    subst hh
    rw [computeConfidence_eq]
    simp only [Bool.false_eq_true, if_false, Bool.and_eq_true, decide_eq_true_iff]
    by_cases hc : d = true ∧ 0.65 ≤ b
    · rw [if_pos hc]
      have h1 : (0:ℚ) ≤ min 0.95 (min 0.95 b + 0.15) := by
        have : (0:ℚ) ≤ min 0.95 b + 0.15 := by
          have : (0:ℚ) ≤ min 0.95 b := le_min hb95 (le_trans (by norm_num) hc.2)
          linarith
        exact le_min hb95 this
      rw [← min_assoc, min_self, max_eq_right h1]
    · rw [if_neg hc]
      have h1 : (0:ℚ) ≤ min 0.95 b := le_min hb95 hb
      rw [← min_assoc, min_self, max_eq_right h1]
  · rw [computeConfidence_eq]
    split
    · exact le_refl 0
    · exact le_max_left 0 _
  · rw [computeConfidence_eq]
    split
    · exact hb95
    · exact max_le hb95 (min_le_left _ _)

/-- C3 witness: the amended formula evaluated at domainMatchEligible
false, baseScore one half, hardMismatch false. -/
theorem claim_C3_amended_witness :
    computeConfidence false (1/2) false = min 0.95 (1/2 : ℚ) := by
  have h := (claim_C3_amended false (1/2) false).2.1 rfl (by norm_num)
  rw [if_neg (by simp)] at h
  exact h

set_option maxHeartbeats 2000000 in
/-- Specification of one scored (non-skipped) candEval result: the
details are the main-query scoring, there is no hard mismatch, the
effective base score is the main base score unless a hard-mismatch-free
altQuery scoring strictly improves it, and the boost, final score and
confidence are the identity-gated combinations of those. -/
theorem candEval_scored_spec (hotelName officialDomain altQuery : Str) (p : Candidate)
    (sc : CandScored) (h : candEval hotelName officialDomain altQuery p = CandEntry.scored sc) :
    sc.details = mainQueryDetails hotelName p
    ∧ sc.details.hardMismatch = false
    ∧ sc.mainBaseScore = (mainQueryDetails hotelName p).baseScore
    ∧ sc.mainBaseScore ≤ sc.baseScore
    ∧ (sc.baseScore ≠ sc.mainBaseScore →
        sc.altUsed = true
        ∧ (scoreNameMatchDetailed altQuery p.name p.city p.country).hardMismatch = false
        ∧ sc.baseScore = (scoreNameMatchDetailed altQuery p.name p.city p.country).baseScore
        ∧ sc.mainBaseScore < (scoreNameMatchDetailed altQuery p.name p.city p.country).baseScore)
    ∧ sc.domainBoost
        = computeDomainBoost (sc.domainMatch && sc.details.coreOverlapAny) sc.baseScore
    ∧ sc.finalScore = sc.baseScore + sc.domainBoost
    ∧ sc.confidence = computeConfidence (sc.domainMatch && sc.details.coreOverlapAny)
        sc.baseScore sc.details.hardMismatch := by
  simp only [candEval] at h
  split at h
  · exact absurd h (by simp)
  · rename_i hhard
    cases h
    refine ⟨?_, ?_, ?_, ?_, ?_, ?_, ?_, ?_⟩
    · rw [mainQueryDetails]
    · simpa using hhard
    · rw [mainQueryDetails]
    · show _ ≤ Prod.fst _
      split
      · rename_i alt heq
        split
        · rename_i halt
          exact le_of_lt (of_decide_eq_true (Bool.and_eq_true_iff.mp halt).2)
        · exact le_refl _
      · exact le_refl _
    · show Prod.fst _ ≠ _ → _
      split
      · rename_i alt heq
        split at heq
        · exact absurd heq (by simp)
        · cases heq
          split
          · rename_i halt
            intro hne
            have h2 := Bool.and_eq_true_iff.mp halt
            exact ⟨rfl, by simpa using h2.1, rfl, of_decide_eq_true h2.2⟩
          · intro hne
            exact absurd rfl hne
      · intro hne
        exact absurd rfl hne
    · rfl
    · exact rAdd_eq _ _
    · rfl

/-- C5: the domain boost of a picked candidate is granted only when both
the domain match and the core-identity overlap hold — either failing
forces a zero boost and a final score equal to the effective base score;
on eligible inputs computeDomainBoost is 0 below base score 0.55 and
min(0.7, 0.9 times base score) otherwise; and in pickBestProperty's
per-candidate evaluation the ranking finalScore is exactly the effective
base score plus this gated boost, with the confidence bonus gated by the
same conjunction. -/
theorem claim_C5 (b : ℚ) :
    computeDomainBoost false b = 0
    ∧ computeDomainBoost true b = (if b < 0.55 then 0 else min 0.7 (0.9 * b))
    ∧ ∀ (hotelName officialDomain altQuery : Str) (p : Candidate) (sc : CandScored),
        candEval hotelName officialDomain altQuery p = CandEntry.scored sc →
          sc.domainBoost
              = computeDomainBoost (sc.domainMatch && sc.details.coreOverlapAny) sc.baseScore
          ∧ sc.finalScore = sc.baseScore
              + computeDomainBoost (sc.domainMatch && sc.details.coreOverlapAny) sc.baseScore
          ∧ (¬(sc.domainMatch = true ∧ sc.details.coreOverlapAny = true) →
              sc.domainBoost = 0 ∧ sc.finalScore = sc.baseScore)
          ∧ sc.confidence = computeConfidence
              (sc.domainMatch && sc.details.coreOverlapAny) sc.baseScore sc.details.hardMismatch
          ∧ sc.details.hardMismatch = false := by
  refine ⟨by unfold computeDomainBoost; simp, ?_, ?_⟩
  · unfold computeDomainBoost
    simp only [Bool.not_true, Bool.false_eq_true, if_false, MIN_SCORE_FOR_DOMAIN_BOOST_eq,
      rMin_eq, rMul_eq, qc_7_10_eq, qc_9_10_eq]
  · intro hotelName officialDomain altQuery p sc h
    obtain ⟨_, hhard, _, _, _, hdb, hfs, hconf⟩ :=
      candEval_scored_spec hotelName officialDomain altQuery p sc h
    have hgate : ¬(sc.domainMatch = true ∧ sc.details.coreOverlapAny = true) →
        (sc.domainMatch && sc.details.coreOverlapAny) = false := by
      intro hno
      cases hb : (sc.domainMatch && sc.details.coreOverlapAny) with
      | false => rfl
      | true => exact absurd (Bool.and_eq_true_iff.mp hb) hno
    refine ⟨hdb, by rw [hfs, hdb], ?_, hconf, hhard⟩
    intro hno
    have h0 : computeDomainBoost (sc.domainMatch && sc.details.coreOverlapAny) sc.baseScore
        = 0 := by
      rw [hgate hno]
      unfold computeDomainBoost
      simp
    exact ⟨by rw [hdb, h0], by rw [hfs, hdb, h0, add_zero]⟩

/-- Concrete candidate for the C5 witness. -/
def c5p : Candidate := { name := str "Alda Hotel" }

/-- The scored entry candEval produces for the C5 witness candidate. -/
def c5sc : CandScored :=
  match candEval (str "Alda Hotel") [] [] c5p with
  | .scored sc => sc
  | .skipped _ _ _ d => ⟨[], [], 0, 0, none, false, false, 0, 0, 0, false, [], d⟩

/-- C5 witness: the per-candidate final-score decomposition evaluated on
a concrete candidate. -/
theorem claim_C5_witness :
    candEval (str "Alda Hotel") [] [] c5p = CandEntry.scored c5sc
    ∧ c5sc.finalScore = c5sc.baseScore
        + computeDomainBoost (c5sc.domainMatch && c5sc.details.coreOverlapAny) c5sc.baseScore := by
  have h : candEval (str "Alda Hotel") [] [] c5p = CandEntry.scored c5sc := by decide
  exact ⟨h, (((claim_C5 0).2.2 _ _ _ c5p c5sc h).2.1)⟩

/-- C6: scoreNameMatchDetailed computes coverage as the number of
stopword-filtered query tokens shared with the candidate over the number
of stopword-filtered query tokens (0 when the query has none); grants the
0.25 contains boost exactly when the normalized query contains the
normalized candidate of length at least 6 with at least 2 raw tokens, or
the normalized candidate contains the normalized query of length at
least 6; returns baseScore as the nonnegative clamp of coverage plus
contains boost plus key-group boost plus type boost minus type penalty;
and hardMismatch is brand mismatch or key conflict. -/
theorem claim_C6 (query candidate city country : Str) :
    (scoreNameMatchDetailed query candidate city country).coverage
      = (if (tokenizeName query).length = 0 then 0
         else ((tokenizeName query).countP (fun t => (tokenizeName candidate).contains t) : ℚ)
            / ((tokenizeName query).length : ℚ))
    ∧ (scoreNameMatchDetailed query candidate city country).containsBoost
      = (if (containsRun (normalizeForIncludes candidate) (normalizeForIncludes query) = true
              ∧ 6 ≤ (normalizeForIncludes candidate).length
              ∧ 2 ≤ (tokenizeRaw candidate).length)
          ∨ (containsRun (normalizeForIncludes query) (normalizeForIncludes candidate) = true
              ∧ 6 ≤ (normalizeForIncludes query).length)
         then 0.25 else 0)
    ∧ (scoreNameMatchDetailed query candidate city country).baseScore
      = max 0 ((scoreNameMatchDetailed query candidate city country).coverage
          + (scoreNameMatchDetailed query candidate city country).containsBoost
          + (scoreNameMatchDetailed query candidate city country).keyGroupBoost
          + (scoreNameMatchDetailed query candidate city country).typeBoost
          - (scoreNameMatchDetailed query candidate city country).typePenalty)
    ∧ (scoreNameMatchDetailed query candidate city country).hardMismatch
      = ((scoreNameMatchDetailed query candidate city country).brandMismatch
          || (scoreNameMatchDetailed query candidate city country).keyConflict) := by
  refine ⟨?_, ?_, ?_, ?_⟩
  · show (if (tokenizeName query).length ≠ 0 then
        rDivNat (qNat ((tokenizeName query).countP
          (fun t => (tokenizeName candidate).contains t))) (tokenizeName query).length
      else 0) = _
    rw [rDivNat_eq, qNat_eq]
    by_cases h0 : (tokenizeName query).length = 0
    · simp [h0]
    · simp [h0]
  · show (if (containsRun (normalizeForIncludes candidate) (normalizeForIncludes query)
          && decide (6 ≤ (normalizeForIncludes candidate).length)
          && decide (2 ≤ (tokenizeRaw candidate).length)
        || containsRun (normalizeForIncludes query) (normalizeForIncludes candidate)
          && decide (6 ≤ (normalizeForIncludes query).length)) = true
      then qc 25 100 else 0) = _
    rw [qc_25_eq]
    simp only [Bool.or_eq_true, Bool.and_eq_true, decide_eq_true_iff, and_assoc]
  · show rMax 0 (rSub (rAdd (rAdd (rAdd
        (scoreNameMatchDetailed query candidate city country).coverage
        (scoreNameMatchDetailed query candidate city country).containsBoost)
        (scoreNameMatchDetailed query candidate city country).keyGroupBoost)
        (scoreNameMatchDetailed query candidate city country).typeBoost)
        (scoreNameMatchDetailed query candidate city country).typePenalty) = _
    rw [rMax_eq, rSub_eq, rAdd_eq, rAdd_eq, rAdd_eq]
  · rfl

theorem lookup_val : ∀ {t : List (Char × Char)} {c v : Char},
    t.lookup c = some v → v ∈ t.map Prod.snd := by
  intro t
  induction t with
  | nil => intro c v h; simp [List.lookup] at h
  | cons p rest ih =>
    obtain ⟨k, b⟩ := p
    intro c v h
    simp only [List.lookup] at h
    split at h
    · cases h; simp
    · have := ih h
      simp only [List.map_cons, List.mem_cons]
      exact Or.inr this

theorem charMap_idem (c : Char) : charMap (charMap c) = charMap c := by
  have FA_A : ∀ v ∈ diacriticPairs.map Prod.snd, diacriticPairs.lookup v = none := by decide
  have FB_A : ∀ v ∈ upperLowerPairs.map Prod.snd, diacriticPairs.lookup v = none := by decide
  have FB_B : ∀ v ∈ upperLowerPairs.map Prod.snd, upperLowerPairs.lookup v = none := by decide
  rcases hA1 : diacriticPairs.lookup c with _ | v
  · rcases hB1 : upperLowerPairs.lookup c with _ | w
    · have hb : charMap c = c := by
        simp [charMap, asciiToLower, stripDiacriticsChar, tableMap, hA1, hB1]
      rw [hb]
      exact hb
    · have hb : charMap c = w := by
        simp [charMap, asciiToLower, stripDiacriticsChar, tableMap, hA1, hB1]
      rw [hb]
      simp [charMap, asciiToLower, stripDiacriticsChar, tableMap,
        FB_A w (lookup_val hB1), FB_B w (lookup_val hB1)]
  · rcases hB1 : upperLowerPairs.lookup v with _ | w
    · have hb : charMap c = v := by
        simp [charMap, asciiToLower, stripDiacriticsChar, tableMap, hA1, hB1]
      rw [hb]
      simp [charMap, asciiToLower, stripDiacriticsChar, tableMap,
        FA_A v (lookup_val hA1), hB1]
    · have hb : charMap c = w := by
        simp [charMap, asciiToLower, stripDiacriticsChar, tableMap, hA1, hB1]
      rw [hb]
      simp [charMap, asciiToLower, stripDiacriticsChar, tableMap,
        FB_A w (lookup_val hB1), FB_B w (lookup_val hB1)]

theorem splitWordsAux_word (w : Word) (hw : ∀ c ∈ w, isWordChar c = true) :
    ∀ (rest : List Char) (acc : Word),
      splitWordsAux (w ++ rest) acc = splitWordsAux rest (w.reverse ++ acc) := by
  induction w with
  | nil => intro rest acc; simp
  | cons c cs ih =>
    intro rest acc
    simp only [List.cons_append, splitWordsAux]
    rw [if_pos (hw c (by simp))]
    simp only [List.append_eq]
    rw [ih (fun x hx => hw x (by simp [hx])) rest (c :: acc)]
    simp

theorem splitWordsAux_pred (P : Char → Prop) :
    ∀ (l : List Char) (acc : Word), (∀ c ∈ l, P c) → (∀ c ∈ acc, P c) →
      ∀ w ∈ splitWordsAux l acc, ∀ c ∈ w, P c := by
  intro l
  induction l with
  | nil =>
    intro acc _ hacc w hw c hc
    simp only [splitWordsAux] at hw
    split at hw
    · simp at hw
    · simp only [List.mem_singleton] at hw
      subst hw
      exact hacc c (List.mem_reverse.mp hc)
  | cons x xs ih =>
    intro acc hl hacc w hw c hc
    simp only [splitWordsAux] at hw
    split at hw
    · exact ih (x :: acc) (fun d hd => hl d (by simp [hd]))
        (fun d hd => by
          rcases List.mem_cons.mp hd with rfl | hd2
          · exact hl d (by simp)
          · exact hacc d hd2) w hw c hc
    · split at hw
      · exact ih [] (fun d hd => hl d (by simp [hd])) (by simp) w hw c hc
      · rcases List.mem_cons.mp hw with rfl | hw2
        · exact hacc c (List.mem_reverse.mp hc)
        · exact ih [] (fun d hd => hl d (by simp [hd])) (by simp) w hw2 c hc

theorem splitWordsAux_wordlike :
    ∀ (l : List Char) (acc : Word), (∀ c ∈ acc, isWordChar c = true) →
      ∀ w ∈ splitWordsAux l acc, w ≠ [] ∧ ∀ c ∈ w, isWordChar c = true := by
  intro l
  induction l with
  | nil =>
    intro acc hacc w hw
    simp only [splitWordsAux] at hw
    split at hw
    · simp at hw
    · rename_i hne
      simp only [List.mem_singleton] at hw
      subst hw
      refine ⟨by simpa using hne, fun c hc => hacc c (List.mem_reverse.mp hc)⟩
  | cons x xs ih =>
    intro acc hacc w hw
    simp only [splitWordsAux] at hw
    split at hw
    · rename_i hword
      exact ih (x :: acc)
        (fun d hd => by
          rcases List.mem_cons.mp hd with rfl | hd2
          · exact hword
          · exact hacc d hd2) w hw
    · split at hw
      · exact ih [] (by simp) w hw
      · rename_i hne
        rcases List.mem_cons.mp hw with rfl | hw2
        · refine ⟨by simpa using hne, fun c hc => hacc c (List.mem_reverse.mp hc)⟩
        · exact ih [] (by simp) w hw2

theorem mapFixed {f : Char → Char} : ∀ (l : List Char), (∀ c ∈ l, f c = c) → l.map f = l := by
  intro l
  induction l with
  | nil => intro _; rfl
  | cons x xs ih =>
    intro h
    simp only [List.map_cons]
    rw [h x (by simp), ih (fun c hc => h c (by simp [hc]))]

theorem splitWords_joinWords :
    ∀ (ws : List Word), (∀ w ∈ ws, w ≠ [] ∧ ∀ c ∈ w, isWordChar c = true) →
      splitWords (joinWords ws) = ws := by
  intro ws
  induction ws with
  | nil => intro _; rfl
  | cons w rest ih =>
    intro h
    obtain ⟨hne, hw⟩ := h w (by simp)
    cases rest with
    | nil =>
      show splitWordsAux (joinWords [w]) [] = [w]
      have h1 : joinWords [w] = w ++ [] := by simp [joinWords]
      rw [h1, splitWordsAux_word w hw [] []]
      simp only [splitWordsAux]
      rw [if_neg (by simpa using hne)]
      simp
    | cons w2 rest2 =>
      show splitWordsAux (joinWords (w :: w2 :: rest2)) [] = w :: w2 :: rest2
      have h1 : joinWords (w :: w2 :: rest2) = w ++ ' ' :: joinWords (w2 :: rest2) := by
        simp [joinWords]
      rw [h1, splitWordsAux_word w hw _ []]
      simp only [splitWordsAux]
      rw [if_neg (by decide)]
      rw [if_neg (by simpa using hne)]
      have h2 := ih (fun x hx => h x (by simp [hx]))
      simp only [splitWords] at h2
      simp [h2]

theorem phraseWords_wordlike (s : Str) :
    ∀ w ∈ phraseWords s, w ≠ [] ∧ ∀ c ∈ w, isWordChar c = true := by
  intro w hw
  exact splitWordsAux_wordlike (s.map charMap) [] (by simp) w hw

theorem phraseWords_charFixed (s : Str) :
    ∀ w ∈ phraseWords s, ∀ c ∈ w, charMap c = c := by
  intro w hw c hc
  refine splitWordsAux_pred (fun c => charMap c = c) (s.map charMap) []
    (fun d hd => ?_) (by simp) w hw c hc
  obtain ⟨e, _, rfl⟩ := List.mem_map.mp hd
  exact charMap_idem e

theorem map_charMap_joinWords :
    ∀ (ws : List Word), (∀ w ∈ ws, ∀ c ∈ w, charMap c = c) →
      (joinWords ws).map charMap = joinWords ws := by
  intro ws
  induction ws with
  | nil => intro _; rfl
  | cons w rest ih =>
    intro h
    cases rest with
    | nil =>
      show (joinWords [w]).map charMap = joinWords [w]
      have h1 : joinWords [w] = w := by simp [joinWords]
      rw [h1]
      exact mapFixed w (h w (by simp))
    | cons w2 rest2 =>
      have h1 : joinWords (w :: w2 :: rest2) = w ++ ' ' :: joinWords (w2 :: rest2) := by
        simp [joinWords]
      rw [h1]
      rw [List.map_append, List.map_cons]
      rw [mapFixed w (h w (by simp))]
      rw [ih (fun x hx => h x (by simp [hx]))]
      rfl

/-- Re-normalizing an already normalized name does not change its word
stream: the extractors applied to normalizeForIncludes of a name see the
same words as applied to the name itself. -/
theorem phraseWords_norm (s : Str) : phraseWords (normalizeForIncludes s) = phraseWords s := by
  show splitWords ((joinWords (phraseWords s)).map charMap) = phraseWords s
  rw [map_charMap_joinWords (phraseWords s) (phraseWords_charFixed s)]
  exact splitWords_joinWords (phraseWords s) (phraseWords_wordlike s)

/-- Brand extraction is stable under normalization. -/
theorem extractStrictBrands_norm (s : Str) :
    extractStrictBrands (normalizeForIncludes s) = extractStrictBrands s := by
  simp only [extractStrictBrands, brandRuleMatches, phraseWords_norm]

/-- Key-group signal extraction is stable under normalization. -/
theorem extractKeySignals_norm (s : Str) :
    extractKeySignals (normalizeForIncludes s) = extractKeySignals s := by
  simp only [extractKeySignals, anyPattern, phraseWords_norm]

/-- C7: brand extraction is phrase-bounded — the bare word Western in
Western Bayside Hotel matches no brand, while the phrase Best Western in
Best Western Plus Bayside matches exactly the best-western brand id — and
in scoring, brandMismatch holds exactly when the query's brand set is
non-empty and shares nothing with the candidate's brand set. -/
theorem claim_C7 :
    extractStrictBrands (str "Western Bayside Hotel") = []
    ∧ extractStrictBrands (str "Best Western Plus Bayside") = ["best-western"]
    ∧ ∀ (query candidate city country : Str),
        (scoreNameMatchDetailed query candidate city country).brandMismatch
          = (!(extractStrictBrands query).isEmpty
              && !(hasAnyOverlap (extractStrictBrands query) (extractStrictBrands candidate))) := by
  refine ⟨by decide, by decide, ?_⟩
  intro query candidate city country
  show (!(extractStrictBrands (normalizeForIncludes query)).isEmpty
      && !(hasAnyOverlap (extractStrictBrands (normalizeForIncludes query))
            (extractStrictBrands (normalizeForIncludes candidate)))) = _
  rw [extractStrictBrands_norm, extractStrictBrands_norm]

/-- C8: keyConflict holds exactly when both sides carry at least one
STRONG key group and the strong sets share nothing (weak signals never
cause a conflict); the key-group boost folds 0.12 per group held strongly
by both sides and 0.06 otherwise over the strong-or-weak overlap, capped
at 0.24; and concretely Hotel Foo Downtown against Hotel Foo City Centre
does not conflict (both land in the strong center group) while Hotel Foo
Airport against Hotel Foo Downtown does. -/
theorem claim_C8 :
    KEY_GROUP_BOOST_STRONG = 0.12 ∧ KEY_GROUP_BOOST_WEAK = 0.06 ∧ KEY_GROUP_BOOST_CAP = 0.24
    ∧ (∀ query candidate city country : Str,
        (scoreNameMatchDetailed query candidate city country).keyConflict
          = (!(extractKeySignals query).strong.isEmpty
              && !(extractKeySignals candidate).strong.isEmpty
              && (interS (extractKeySignals query).strong
                  (extractKeySignals candidate).strong).isEmpty))
    ∧ (∀ query candidate city country : Str,
        (scoreNameMatchDetailed query candidate city country).keyGroupBoost
          = min KEY_GROUP_BOOST_CAP
              ((interS
                  (unionS (extractKeySignals query).strong (extractKeySignals query).weak)
                  (unionS (extractKeySignals candidate).strong (extractKeySignals candidate).weak)).foldl
                (fun acc gid =>
                  acc + (if (extractKeySignals query).strong.contains gid
                      && (extractKeySignals candidate).strong.contains gid then
                    KEY_GROUP_BOOST_STRONG else KEY_GROUP_BOOST_WEAK)) 0))
    ∧ (scoreNameMatchDetailed (str "Hotel Foo Downtown") (str "Hotel Foo City Centre")
        [] []).keyConflict = false
    ∧ (scoreNameMatchDetailed (str "Hotel Foo Airport") (str "Hotel Foo Downtown")
        [] []).keyConflict = true := by
  refine ⟨by norm_num [KEY_GROUP_BOOST_STRONG, qc, Rat.mkRat_eq_div],
    by norm_num [KEY_GROUP_BOOST_WEAK, qc, Rat.mkRat_eq_div],
    by norm_num [KEY_GROUP_BOOST_CAP, qc, Rat.mkRat_eq_div], ?_, ?_, by decide, by decide⟩
  · intro query candidate city country
    show (!(extractKeySignals (normalizeForIncludes query)).strong.isEmpty
        && !(extractKeySignals (normalizeForIncludes candidate)).strong.isEmpty
        && (interS (extractKeySignals (normalizeForIncludes query)).strong
            (extractKeySignals (normalizeForIncludes candidate)).strong).isEmpty) = _
    rw [extractKeySignals_norm, extractKeySignals_norm]
  · intro query candidate city country
    show rMin KEY_GROUP_BOOST_CAP
        ((interS
            (unionS (extractKeySignals (normalizeForIncludes query)).strong
              (extractKeySignals (normalizeForIncludes query)).weak)
            (unionS (extractKeySignals (normalizeForIncludes candidate)).strong
              (extractKeySignals (normalizeForIncludes candidate)).weak)).foldl
          (fun acc gid =>
            rAdd acc (if (extractKeySignals (normalizeForIncludes query)).strong.contains gid
                && (extractKeySignals (normalizeForIncludes candidate)).strong.contains gid then
              KEY_GROUP_BOOST_STRONG else KEY_GROUP_BOOST_WEAK)) 0) = _
    rw [rMin_eq, extractKeySignals_norm, extractKeySignals_norm]
    have hfold : ∀ (l : List String) (f : String → ℚ) (init : ℚ),
        l.foldl (fun acc gid => rAdd acc (f gid)) init
          = l.foldl (fun acc gid => acc + f gid) init := by
      intro l
      induction l with
      | nil => intro f init; rfl
      | cons x xs ih =>
        intro f init
        simp only [List.foldl_cons]
        rw [rAdd_eq]
        exact ih f _
    exact congrArg (min KEY_GROUP_BOOST_CAP) (hfold _ _ 0)

/-- The re-scoring validateCachedToken performs: the current query,
location-suffix-stripped against the cached record's city and country,
against the cached property name. -/
def validateDetails (hotelName : Str) (t : TokenObj) : MatchDetails :=
  scoreNameMatchDetailed (stripTrailingLocationSuffix hotelName t.city t.country).stripped
    t.property_name t.city t.country

/-- The link host validateCachedToken ensures: the cached linkHost, or
the host of the cached link. -/
def validateLinkHost (t : TokenObj) : Str :=
  if !t.linkHost.isEmpty then t.linkHost else getHostNoWww t.link

/-- The domain-equivalence flag validateCachedToken computes. -/
def validateDomainMatch (officialDomain : Str) (t : TokenObj) : Bool :=
  if !officialDomain.isEmpty then domainsEquivalent (validateLinkHost t) officialDomain
  else false

/-- The confidence validateCachedToken computes, with the identity-gated
domain match. -/
def validateConfidence (hotelName officialDomain : Str) (t : TokenObj) : ℚ :=
  computeConfidence
    (validateDomainMatch officialDomain t && (validateDetails hotelName t).coreOverlapAny)
    (validateDetails hotelName t).baseScore (validateDetails hotelName t).hardMismatch

/-- C4: for every cached record with a non-empty property_name, the
validator rejects unconditionally on a hard mismatch of the re-scoring;
for source hit-domain it accepts exactly when there is no hard mismatch,
the base score reaches HIT_DOMAIN_MIN_SCORE (0.70) and the core
identities overlap; for every other source it accepts exactly when there
is no hard mismatch and the confidence reaches 0.55; and acceptance
returns the refreshed linkHost, nameScore, confidence, domainMatch,
coreOverlapAny and matchDetails updates. -/
theorem claim_C4 (hotelName officialDomain : Str) (t : TokenObj) (source : String)
    (hpn : t.property_name ≠ []) :
    ((validateDetails hotelName t).hardMismatch = true →
      (validateCachedToken hotelName officialDomain t source).isOk = false
      ∧ (validateCachedToken hotelName officialDomain t source).reasonOf
          = some "hard_mismatch")
    ∧ (source = "hit-domain" →
        ((validateCachedToken hotelName officialDomain t source).isOk = true
          ↔ (validateDetails hotelName t).hardMismatch = false
            ∧ HIT_DOMAIN_MIN_SCORE ≤ (validateDetails hotelName t).baseScore
            ∧ (validateDetails hotelName t).coreOverlapAny = true))
    ∧ (source ≠ "hit-domain" →
        ((validateCachedToken hotelName officialDomain t source).isOk = true
          ↔ (validateDetails hotelName t).hardMismatch = false
            ∧ 0.55 ≤ validateConfidence hotelName officialDomain t))
    ∧ ((validateCachedToken hotelName officialDomain t source).isOk = true →
        (validateCachedToken hotelName officialDomain t source).updatesOf
          = some ⟨validateLinkHost t, (validateDetails hotelName t).baseScore,
              validateConfidence hotelName officialDomain t,
              validateDomainMatch officialDomain t,
              (validateDetails hotelName t).coreOverlapAny,
              validateDetails hotelName t, officialDomain⟩) := by
  have hpn' : t.property_name.isEmpty = false := by
    cases h : t.property_name.isEmpty
    · rfl
    · exact absurd (List.isEmpty_iff.mp h) hpn
  have he : validateCachedToken hotelName officialDomain t source =
      (if (validateDetails hotelName t).hardMismatch = true then
        ValidateResult.rejected "hard_mismatch" (validateDetails hotelName t)
          (validateConfidence hotelName officialDomain t)
          (validateDetails hotelName t).baseScore
          (validateDomainMatch officialDomain t)
          (validateDetails hotelName t).coreOverlapAny
          (stripTrailingLocationSuffix hotelName t.city t.country).stripped
      else if (source == "hit-domain") = true then
        (if (validateDetails hotelName t).baseScore < HIT_DOMAIN_MIN_SCORE then
          ValidateResult.rejected
            ("domain_hit_but_name_too_low:" ++ toFixed3 (validateDetails hotelName t).baseScore)
            (validateDetails hotelName t)
            (validateConfidence hotelName officialDomain t)
            (validateDetails hotelName t).baseScore
            (validateDomainMatch officialDomain t)
            (validateDetails hotelName t).coreOverlapAny
            (stripTrailingLocationSuffix hotelName t.city t.country).stripped
        else if (!(validateDetails hotelName t).coreOverlapAny) = true then
          ValidateResult.rejected "domain_hit_no_identity_overlap"
            (validateDetails hotelName t)
            (validateConfidence hotelName officialDomain t)
            (validateDetails hotelName t).baseScore
            (validateDomainMatch officialDomain t)
            (validateDetails hotelName t).coreOverlapAny
            (stripTrailingLocationSuffix hotelName t.city t.country).stripped
        else
          ValidateResult.accepted
            ⟨validateLinkHost t, (validateDetails hotelName t).baseScore,
              validateConfidence hotelName officialDomain t,
              validateDomainMatch officialDomain t,
              (validateDetails hotelName t).coreOverlapAny,
              validateDetails hotelName t, officialDomain⟩
            (validateConfidence hotelName officialDomain t)
            (validateDetails hotelName t).baseScore
            (validateDomainMatch officialDomain t)
            (validateDetails hotelName t).coreOverlapAny
            (stripTrailingLocationSuffix hotelName t.city t.country).stripped
            (validateDetails hotelName t))
      else if validateConfidence hotelName officialDomain t < qc 55 100 then
        ValidateResult.rejected
          ("confidence_too_low:" ++ toFixed3 (validateConfidence hotelName officialDomain t))
          (validateDetails hotelName t)
          (validateConfidence hotelName officialDomain t)
          (validateDetails hotelName t).baseScore
          (validateDomainMatch officialDomain t)
          (validateDetails hotelName t).coreOverlapAny
          (stripTrailingLocationSuffix hotelName t.city t.country).stripped
      else
        ValidateResult.accepted
          ⟨validateLinkHost t, (validateDetails hotelName t).baseScore,
            validateConfidence hotelName officialDomain t,
            validateDomainMatch officialDomain t,
            (validateDetails hotelName t).coreOverlapAny,
            validateDetails hotelName t, officialDomain⟩
          (validateConfidence hotelName officialDomain t)
          (validateDetails hotelName t).baseScore
          (validateDomainMatch officialDomain t)
          (validateDetails hotelName t).coreOverlapAny
          (stripTrailingLocationSuffix hotelName t.city t.country).stripped
          (validateDetails hotelName t)) := by
    simp only [validateCachedToken, validateDetails, validateLinkHost, validateDomainMatch,
      validateConfidence, hpn', Bool.false_eq_true, if_false]
  refine ⟨?_, ?_, ?_, ?_⟩
  · intro hh
    rw [he, if_pos hh]
    exact ⟨rfl, rfl⟩
  · intro hs
    subst hs
    rw [he]
    by_cases hh : (validateDetails hotelName t).hardMismatch = true
    · rw [if_pos hh]
      simp [ValidateResult.isOk, hh]
    · have hh' : (validateDetails hotelName t).hardMismatch = false := by
        simpa using hh
      rw [if_neg hh, if_pos (by rfl : (("hit-domain" : String) == "hit-domain") = true)]
      by_cases hlt : (validateDetails hotelName t).baseScore < HIT_DOMAIN_MIN_SCORE
      · rw [if_pos hlt]
        simp only [ValidateResult.isOk, Bool.false_eq_true, false_iff]
        intro hcon
        exact absurd hcon.2.1 (not_le.mpr hlt)
      · rw [if_neg hlt]
        by_cases hcore : (validateDetails hotelName t).coreOverlapAny = true
        · rw [if_neg (by simp [hcore])]
          simp only [ValidateResult.isOk, true_iff]
          exact ⟨hh', not_lt.mp hlt, hcore⟩
        · have hcore' : (validateDetails hotelName t).coreOverlapAny = false := by
            simpa using hcore
          rw [if_pos (by simp [hcore'])]
          simp only [ValidateResult.isOk, Bool.false_eq_true, false_iff]
          intro hcon
          exact absurd hcon.2.2 hcore
  · intro hs
    rw [he]
    by_cases hh : (validateDetails hotelName t).hardMismatch = true
    · rw [if_pos hh]
      simp [ValidateResult.isOk, hh]
    · have hh' : (validateDetails hotelName t).hardMismatch = false := by
        simpa using hh
      rw [if_neg hh, if_neg (by simp [hs])]
      by_cases hc : validateConfidence hotelName officialDomain t < qc 55 100
      · rw [if_pos hc]
        simp only [ValidateResult.isOk, Bool.false_eq_true, false_iff]
        intro hcon
        rw [qc_55_eq] at hc
        exact absurd hcon.2 (not_le.mpr hc)
      · rw [if_neg hc]
        simp only [ValidateResult.isOk, true_iff]
        rw [qc_55_eq] at hc
        exact ⟨hh', not_lt.mp hc⟩
  · intro hok
    rw [he] at hok ⊢
    split at hok
    · exact absurd hok (by simp [ValidateResult.isOk])
    · split at hok
      · split at hok
        · exact absurd hok (by simp [ValidateResult.isOk])
        · split at hok
          · exact absurd hok (by simp [ValidateResult.isOk])
          · rename_i h1 h2 h3 h4
            rw [if_neg h1, if_pos h2, if_neg h3, if_neg h4]
            rfl
      · split at hok
        · exact absurd hok (by simp [ValidateResult.isOk])
        · rename_i h1 h2 h3
          rw [if_neg h1, if_neg h2, if_neg h3]
          rfl

/-- The cached domain-keyed entry of the spec's end-to-end scenario:
token T1 with property name Alda Hotel on example.com. -/
def c1Token : TokenObj :=
  { property_token := str "T1", property_name := str "Alda Hotel",
    city := str "Reykjavík", country := str "Iceland",
    link := str "https://example.com/", linkHost := str "example.com" }

/-- C4 witness: the hit-domain acceptance equivalence evaluated on the
concrete end-to-end record and query. -/
theorem claim_C4_witness :
    ((c1Token.property_name ≠ []) ∧
      ((validateCachedToken (str "Alda Hotel Reykjavík") (str "example.com") c1Token
          "hit-domain").isOk = true
        ↔ (validateDetails (str "Alda Hotel Reykjavík") c1Token).hardMismatch = false
          ∧ HIT_DOMAIN_MIN_SCORE
              ≤ (validateDetails (str "Alda Hotel Reykjavík") c1Token).baseScore
          ∧ (validateDetails (str "Alda Hotel Reykjavík") c1Token).coreOverlapAny = true)) :=
  ⟨by decide,
    (claim_C4 (str "Alda Hotel Reykjavík") (str "example.com") c1Token "hit-domain"
      (by decide)).2.1 rfl⟩

/-- C1 counterexample: for the end-to-end scenario's domain-keyed entry
queried with hotelName Completely Different Hostel, the Token Validator's
rejection reason is not hard_mismatch — the accommodation-type divergence
is only a soft penalty and neither a brand conflict nor a key-group
conflict fires, so the hit-domain score threshold produces the rejection
instead. -/
theorem claim_C1_counterexample :
    (validateCachedToken (str "Completely Different Hostel") (str "example.com") c1Token
      "hit-domain").reasonOf ≠ some "hard_mismatch" := by decide

/-- Resolution environment of the staleness scenario: the domain-keyed
entry above, no session context, no booking or name entries, and a live
search that can answer. -/
def c1Live : Candidate :=
  { name := str "Completely Different Hostel", property_token := str "T9" }

/-- Resolution environment of the staleness scenario (continued): the
fields of c1Env. -/
def c1Env : ResolveEnv :=
  { hotelName := str "Completely Different Hostel"
    officialDomain := str "example.com"
    domainEntry := some c1Token
    liveProperties := some [c1Live] }

/-- C1 (amended): the Token Validator does reject the cached record for
the query Completely Different Hostel — its re-scoring has no hard
mismatch (the strong hostel type against the weak hotel type is only a
soft penalty), so the rejection reason is the hit-domain score threshold
reason domain_hit_but_name_too_low:0.000 rather than hard_mismatch — and
resolution falls through to a live search. -/
theorem claim_C1_amended :
    (validateCachedToken (str "Completely Different Hostel") (str "example.com") c1Token
      "hit-domain").isOk = false
    ∧ (validateCachedToken (str "Completely Different Hostel") (str "example.com") c1Token
        "hit-domain").reasonOf = some "domain_hit_but_name_too_low:0.000"
    ∧ (scoreNameMatchDetailed (str "Completely Different Hostel") (str "Alda Hotel")
        (str "Reykjavík") (str "Iceland")).hardMismatch = false
    ∧ (resolveToken c1Env).liveCalled = true
    ∧ servedDetail (resolveToken c1Env) = some "miss" := by
  refine ⟨by decide, by decide, by decide, by decide, by decide⟩

theorem candEval_hard_eq (hn od alt : Str) (p : Candidate) (h : mainHard hn p = true) :
    candEval hn od alt p = CandEntry.skipped p.name p.city
      (if (mainQueryDetails hn p).brandMismatch = true then "brand_mismatch"
       else if (mainQueryDetails hn p).keyConflict = true then "key_conflict"
       else "hard_mismatch")
      (mainQueryDetails hn p) := by
  simp only [candEval]
  rw [if_pos (by simpa [mainHard, mainQueryDetails] using h)]
  simp only [mainQueryDetails]

theorem candEval_scored_hard (hn od alt : Str) (p : Candidate) (sc : CandScored)
    (h : candEval hn od alt p = CandEntry.scored sc) : mainHard hn p = false := by
  have hs := candEval_scored_spec hn od alt p sc h
  have h2 := hs.2.1
  rw [hs.1] at h2
  simpa [mainHard] using h2

theorem candEval_skipped_hard (hn od alt : Str) (p : Candidate) (n c : Str) (r : String)
    (d : MatchDetails) (h : candEval hn od alt p = CandEntry.skipped n c r d) :
    mainHard hn p = true := by
  cases hh : mainHard hn p
  · simp only [candEval] at h
    rw [if_neg (by simpa [mainHard, mainQueryDetails] using hh)] at h
    exact absurd h (by simp)
  · rfl

theorem pickStep_allCandidates (hn od alt : Str) (st : PickState) (p : Candidate) :
    (pickStep hn od alt st p).allCandidates = st.allCandidates ++ [candEval hn od alt p] := by
  cases h : candEval hn od alt p with
  | skipped n c r d => simp [pickStep, h]
  | scored sc =>
    simp only [pickStep, h]
    split <;> rfl

theorem foldl_allCandidates (hn od alt : Str) : ∀ (l : List Candidate) (st : PickState),
    (l.foldl (pickStep hn od alt) st).allCandidates
      = st.allCandidates ++ l.map (candEval hn od alt) := by
  intro l
  induction l with
  | nil => intro st; simp
  | cons p rest ih =>
    intro st
    simp only [List.foldl_cons, List.map_cons]
    rw [ih, pickStep_allCandidates]
    simp

theorem baseScore_nonneg (q c ci co : Str) :
    0 ≤ (scoreNameMatchDetailed q c ci co).baseScore := by
  show (0:ℚ) ≤ rMax 0 _
  rw [rMax_eq]
  exact le_max_left 0 _

theorem computeDomainBoost_nonneg (d : Bool) (b : ℚ) (hb : 0 ≤ b) :
    0 ≤ computeDomainBoost d b := by
  unfold computeDomainBoost
  split
  · exact le_refl 0
  · split
    · exact le_refl 0
    · rw [rMin_eq]
      refine le_min (by rw [qc_7_10_eq]; norm_num) ?_
      rw [rMul_eq, qc_9_10_eq]
      exact mul_nonneg (by norm_num) hb

theorem scored_finalScore_nonneg (hn od alt : Str) (p : Candidate) (sc : CandScored)
    (h : candEval hn od alt p = CandEntry.scored sc) : 0 ≤ sc.finalScore := by
  obtain ⟨h1, _, h3, h4, _, h6, h7, _⟩ := candEval_scored_spec hn od alt p sc h
  have hb0 : 0 ≤ (mainQueryDetails hn p).baseScore := baseScore_nonneg _ _ _ _
  have hb : 0 ≤ sc.baseScore := le_trans (h3 ▸ hb0) h4
  have hboost := computeDomainBoost_nonneg (sc.domainMatch && sc.details.coreOverlapAny)
    sc.baseScore hb
  rw [h7, h6]
  exact add_nonneg hb hboost

theorem pickStep_best (hn od alt : Str) (st : PickState) (p x : Candidate) :
    (pickStep hn od alt st p).best = some x →
      st.best = some x ∨ (x = p ∧ mainHard hn p = false) := by
  cases h : candEval hn od alt p with
  | skipped n c r d =>
    intro hb
    left
    simpa [pickStep, h] using hb
  | scored sc =>
    intro hb
    simp only [pickStep, h] at hb
    split at hb
    · right
      exact ⟨(Option.some_inj.mp hb).symm, candEval_scored_hard hn od alt p sc h⟩
    · left
      exact hb

theorem foldl_best_mem (hn od alt : Str) : ∀ (l : List Candidate) (st : PickState)
    (x : Candidate), (l.foldl (pickStep hn od alt) st).best = some x →
      st.best = some x ∨ (x ∈ l ∧ mainHard hn x = false) := by
  intro l
  induction l with
  | nil => intro st x h; exact Or.inl h
  | cons p rest ih =>
    intro st x h
    rcases ih (pickStep hn od alt st p) x h with h1 | h2
    · rcases pickStep_best hn od alt st p x h1 with h3 | ⟨rfl, h4⟩
      · exact Or.inl h3
      · exact Or.inr ⟨by simp, h4⟩
    · exact Or.inr ⟨by simp [h2.1], h2.2⟩

theorem pickStep_best_none (hn od alt : Str) (st : PickState) (p : Candidate)
    (hinv : st.best = none → st.bestScore = qc (-1) 1) :
    ((pickStep hn od alt st p).best = none ↔ (st.best = none ∧ mainHard hn p = true))
    ∧ ((pickStep hn od alt st p).best = none →
        (pickStep hn od alt st p).bestScore = qc (-1) 1) := by
  cases h : candEval hn od alt p with
  | skipped n c r d =>
    have hm := candEval_skipped_hard hn od alt p n c r d h
    constructor
    · simp [pickStep, h, hm]
    · intro hb
      simp only [pickStep, h] at hb ⊢
      exact hinv hb
  | scored sc =>
    have hm := candEval_scored_hard hn od alt p sc h
    have hf := scored_finalScore_nonneg hn od alt p sc h
    constructor
    · simp only [pickStep, h]
      cases hsb : st.best with
      | none =>
        have hscore := hinv hsb
        have hlt : st.bestScore < sc.finalScore := by
          rw [hscore, qc_neg1_eq]
          linarith
        rw [if_pos hlt]
        simp [hm]
      | some x =>
        split
        · simp [hsb]
        · simp [hsb, hm]
    · intro hb
      simp only [pickStep, h] at hb ⊢
      by_cases hlt : st.bestScore < sc.finalScore
      · rw [if_pos hlt] at hb
        exact absurd hb (by simp)
      · rw [if_neg hlt] at hb ⊢
        exact hinv hb

theorem foldl_best_none (hn od alt : Str) : ∀ (l : List Candidate) (st : PickState),
    (st.best = none → st.bestScore = qc (-1) 1) →
    (((l.foldl (pickStep hn od alt) st).best = none
        ↔ (st.best = none ∧ ∀ p ∈ l, mainHard hn p = true))
     ∧ ((l.foldl (pickStep hn od alt) st).best = none →
        (l.foldl (pickStep hn od alt) st).bestScore = qc (-1) 1)) := by
  intro l
  induction l with
  | nil =>
    intro st hinv
    exact ⟨by simp, hinv⟩
  | cons p rest ih =>
    intro st hinv
    have hstep := pickStep_best_none hn od alt st p hinv
    have hrec := ih (pickStep hn od alt st p) hstep.2
    constructor
    · rw [List.foldl_cons, hrec.1, hstep.1]
      constructor
      · rintro ⟨⟨h1, h2⟩, h3⟩
        refine ⟨h1, fun q hq => ?_⟩
        rcases List.mem_cons.mp hq with rfl | hq2
        · exact h2
        · exact h3 q hq2
      · rintro ⟨h1, h2⟩
        exact ⟨⟨h1, h2 p (by simp)⟩, fun q hq => h2 q (by simp [hq])⟩
    · rw [List.foldl_cons]
      exact hrec.2

theorem pickBestProperty_some (props : List Candidate) (hn od alt0 : Str) (r : PickResult)
    (h : pickBestProperty props hn od alt0 = some r) :
    props ≠ []
    ∧ r = (let st := props.foldl (pickStep hn od (trimStr alt0)) {}
        ⟨st.best, st.bestScore, st.bestNameScore, st.bestDomainMatch, st.bestLinkHost,
          st.bestConfidence, st.bestMatchDetails, st.allCandidates⟩) := by
  unfold pickBestProperty at h
  split at h
  · exact absurd h (by simp)
  · rename_i he
    refine ⟨fun hc => absurd (by simp [hc]) he, ?_⟩
    exact (Option.some_inj.mp h).symm

/-- C2: a main-query hard mismatch excludes a candidate from
pickBestProperty's winner — the winner is always free of main-query hard
mismatch; a hard-mismatched candidate's entry is the skip record with a
reason, computed identically for every altQuery (so before and
independent of any altQuery rescoring); and for a non-hard-mismatched
candidate the altQuery can only raise the effective base score, does so
only when its own scoring has no hard mismatch, and never affects the
main query's hard-mismatch verdict. -/
theorem claim_C2 (properties : List Candidate) (hotelName officialDomain altQuery : Str)
    (r : PickResult) (h : pickBestProperty properties hotelName officialDomain altQuery = some r) :
    (∀ p, r.best = some p → mainHard hotelName p = false)
    ∧ (∀ p, mainHard hotelName p = true → ∀ altQ2 : Str,
        candEval hotelName officialDomain altQ2 p
          = CandEntry.skipped p.name p.city
              (if (mainQueryDetails hotelName p).brandMismatch = true then "brand_mismatch"
               else if (mainQueryDetails hotelName p).keyConflict = true then "key_conflict"
               else "hard_mismatch")
              (mainQueryDetails hotelName p))
    ∧ (∀ p sc, candEval hotelName officialDomain (trimStr altQuery) p = CandEntry.scored sc →
        sc.mainBaseScore ≤ sc.baseScore
        ∧ (sc.baseScore ≠ sc.mainBaseScore →
            sc.altUsed = true
            ∧ (scoreNameMatchDetailed (trimStr altQuery) p.name p.city p.country).hardMismatch
                = false
            ∧ sc.baseScore
                = (scoreNameMatchDetailed (trimStr altQuery) p.name p.city p.country).baseScore)) := by
  obtain ⟨hne, hr⟩ := pickBestProperty_some properties hotelName officialDomain altQuery r h
  refine ⟨?_, ?_, ?_⟩
  · intro p hb
    rw [hr] at hb
    rcases foldl_best_mem hotelName officialDomain (trimStr altQuery) properties {} p hb with
      h1 | h2
    · exact absurd h1 (by simp)
    · exact h2.2
  · intro p hp altQ2
    exact candEval_hard_eq hotelName officialDomain altQ2 p hp
  · intro p sc hsc
    obtain ⟨_, _, _, h4, h5, _, _, _⟩ :=
      candEval_scored_spec hotelName officialDomain (trimStr altQuery) p sc hsc
    exact ⟨h4, fun hne2 => ⟨(h5 hne2).1, (h5 hne2).2.1, (h5 hne2).2.2.1⟩⟩

/-- C10: pickBestProperty is total — none exactly on an empty candidate
list, otherwise a result whose allCandidates has exactly one entry per
input candidate (a skip record with a reason for the hard-mismatched
ones, a scored entry for all others, even with missing fields), and whose
best is none exactly when every candidate was hard-mismatch-skipped, in
which case bestScore is -1. -/
theorem claim_C10 (properties : List Candidate) (hotelName officialDomain altQuery : Str) :
    (pickBestProperty properties hotelName officialDomain altQuery = none ↔ properties = [])
    ∧ (∀ r, pickBestProperty properties hotelName officialDomain altQuery = some r →
        r.allCandidates = properties.map (candEval hotelName officialDomain (trimStr altQuery))
        ∧ r.allCandidates.length = properties.length
        ∧ (∀ p ∈ properties,
            (candEval hotelName officialDomain (trimStr altQuery) p).isSkipped
              = mainHard hotelName p)
        ∧ (∀ p ∈ properties, mainHard hotelName p = true →
            candEval hotelName officialDomain (trimStr altQuery) p
              = CandEntry.skipped p.name p.city
                  (if (mainQueryDetails hotelName p).brandMismatch = true then "brand_mismatch"
                   else if (mainQueryDetails hotelName p).keyConflict = true then "key_conflict"
                   else "hard_mismatch")
                  (mainQueryDetails hotelName p))
        ∧ (r.best = none ↔ ∀ p ∈ properties, mainHard hotelName p = true)
        ∧ (r.best = none → r.bestScore = -1)) := by
  constructor
  · unfold pickBestProperty
    split
    · rename_i he
      simp only [true_iff]
      simpa using he
    · rename_i he
      constructor
      · intro hc
        exact absurd hc (by simp)
      · intro hc
        exact absurd (by simp [hc] : properties.isEmpty = true) he
  · intro r h
    obtain ⟨hne, hr⟩ := pickBestProperty_some properties hotelName officialDomain altQuery r h
    have hnone := foldl_best_none hotelName officialDomain (trimStr altQuery) properties {}
      (fun _ => rfl)
    refine ⟨?_, ?_, ?_, ?_, ?_, ?_⟩
    · rw [hr]
      show (properties.foldl (pickStep hotelName officialDomain (trimStr altQuery)) {}).allCandidates = _
      rw [foldl_allCandidates]
      rfl
    · rw [hr]
      show (properties.foldl (pickStep hotelName officialDomain (trimStr altQuery)) {}).allCandidates.length = _
      rw [foldl_allCandidates]
      simp
    · intro p _
      cases hc : candEval hotelName officialDomain (trimStr altQuery) p with
      | skipped n c rr d =>
        rw [candEval_skipped_hard hotelName officialDomain (trimStr altQuery) p n c rr d hc]
        rfl
      | scored sc =>
        rw [candEval_scored_hard hotelName officialDomain (trimStr altQuery) p sc hc]
        rfl
    · intro p _ hp
      exact candEval_hard_eq hotelName officialDomain (trimStr altQuery) p hp
    · rw [hr]
      show (properties.foldl (pickStep hotelName officialDomain (trimStr altQuery)) {}).best = none ↔ _
      rw [hnone.1]
      simp
    · intro hb
      rw [hr] at hb ⊢
      have := hnone.2 hb
      show (properties.foldl (pickStep hotelName officialDomain (trimStr altQuery)) {}).bestScore = -1
      rw [this, qc_neg1_eq]

/-- Candidate list for the C2 and C10 witnesses: one matching hotel and
one brand-mismatched hotel. -/
def c2props : List Candidate :=
  [{ name := str "Hilton Anchorage", property_token := str "T1" },
   { name := str "Marriott Anchorage", property_token := str "T2" }]

/-- The pick result over the witness candidates. -/
def c2r : PickResult :=
  match pickBestProperty c2props (str "Hilton Anchorage") [] [] with
  | some r => r
  | none => ⟨none, 0, 0, false, [], 0, none, []⟩

/-- C2 witness: the winner over the concrete list is free of main-query
hard mismatch. -/
theorem claim_C2_witness :
    pickBestProperty c2props (str "Hilton Anchorage") [] [] = some c2r
    ∧ ∀ p, c2r.best = some p → mainHard (str "Hilton Anchorage") p = false := by
  have h : pickBestProperty c2props (str "Hilton Anchorage") [] [] = some c2r := by decide
  exact ⟨h, (claim_C2 c2props (str "Hilton Anchorage") [] [] c2r h).1⟩

/-- C10 witness: the per-candidate entry list over the concrete list. -/
theorem claim_C10_witness :
    pickBestProperty c2props (str "Hilton Anchorage") [] [] = some c2r
    ∧ c2r.allCandidates.length = c2props.length := by
  have h : pickBestProperty c2props (str "Hilton Anchorage") [] [] = some c2r := by decide
  exact ⟨h, ((claim_C10 c2props (str "Hilton Anchorage") [] []).2 c2r h).2.1⟩

theorem pickBestProperty_nil (hn od alt : Str) : pickBestProperty [] hn od alt = none := rfl

theorem ctxTier_not_accept (env : ResolveEnv) (st0 : RState) (h : ctxAccept env = false) :
    ctxTier env st0 = st0 := by
  unfold ctxTier
  unfold ctxAccept at h
  cases hk : env.hasCtxKey with
  | false => simp [hk]
  | true =>
    simp only [hk, Bool.true_and] at h
    cases hps : env.ctxProperties with
    | none => simp [hps]
    | some props =>
      simp only [hps] at h
      by_cases hemp : props.isEmpty = true
      · simp [hk, hps, hemp]
      · cases hpick : pickBestProperty props env.hotelName env.officialDomain (envAltQuery env)
          with
        | none => simp [hk, hps, hemp, hpick]
        | some picked =>
          simp only [hpick] at h
          cases hb : picked.best with
          | none => simp [hk, hps, hemp, hpick, hb]
          | some b =>
            simp only [hb] at h
            simp [hk, hps, hemp, hpick, hb, h]

theorem ctxTier_accept (env : ResolveEnv) (st0 : RState) (h : ctxAccept env = true) :
    ∃ t, (ctxTier env st0).tokenObj = some t
      ∧ t.property_token ≠ []
      ∧ (ctxTier env st0).detail = "ctx-hit"
      ∧ (qc 75 100 ≤ t.confidence →
          CacheWrite.nameW t TOKEN_TTL_NO_DOMAIN_SEC ∈ (ctxTier env st0).writes
          ∧ (env.officialDomain ≠ [] →
              CacheWrite.domainW t TOKEN_TTL_SEC ∈ (ctxTier env st0).writes))
      ∧ (¬(qc 75 100 ≤ t.confidence) → (ctxTier env st0).writes = []) := by
  unfold ctxTier
  unfold ctxAccept at h
  cases hk : env.hasCtxKey with
  | false => rw [hk] at h; exact absurd h (by simp)
  | true =>
    simp only [hk, Bool.true_and] at h
    cases hps : env.ctxProperties with
    | none => rw [hps] at h; exact absurd h (by simp)
    | some props =>
      simp only [hps] at h
      by_cases hemp : props.isEmpty = true
      · have hnil : props = [] := by simpa using hemp
        subst hnil
        rw [pickBestProperty_nil] at h
        exact absurd h (by simp)
      · cases hpick : pickBestProperty props env.hotelName env.officialDomain (envAltQuery env)
          with
        | none => rw [hpick] at h; exact absurd h (by simp)
        | some picked =>
          simp only [hpick] at h
          cases hb : picked.best with
          | none => rw [hb] at h; exact absurd h (by simp)
          | some b =>
            simp only [hb] at h
            simp only [hk, hps, hemp, hpick, hb, eq_self_iff_true, if_true,
              Bool.false_eq_true, if_false]
            rw [if_pos h]
            refine ⟨ctxTokenObj env picked b, rfl, ?_, rfl, ?_, ?_⟩
            · have := (Bool.and_eq_true_iff.mp (Bool.and_eq_true_iff.mp h).1).1
              simpa [ctxTokenObj, List.isEmpty_iff] using this
            · intro hconf
              have hconf2 : decide (qc 75 100 ≤ picked.confidence) = true :=
                decide_eq_true (by simpa [ctxTokenObj] using hconf)
              constructor
              · simp [hconf2]
              · intro hod
                have hod2 : env.officialDomain.isEmpty = false := by
                  simpa [List.isEmpty_iff] using hod
                simp [hconf2, hod2]
            · intro hconf
              have hconf2 : decide (qc 75 100 ≤ picked.confidence) = false := by
                simpa [ctxTokenObj] using hconf
              simp [hconf2]

theorem tierValidate_hasTok (hn od : Str) (e : Option TokenObj) (src : String)
    (kp bf : Bool) (st : RState) (h : hasTok st.tokenObj = true) :
    tierValidate hn od e src kp bf st = st := by
  unfold tierValidate
  rw [if_neg (by simp [h])]

theorem tierValidate_not_accept (hn od : Str) (e : Option TokenObj) (src : String)
    (kp bf : Bool) (st : RState) (h : hasTok st.tokenObj = false)
    (hna : kp = false ∨ tierAccept hn od e src = false) :
    hasTok (tierValidate hn od e src kp bf st).tokenObj = false
    ∧ (tierValidate hn od e src kp bf st).writes = st.writes := by
  cases hkp : kp with
  | false =>
    have hred : tierValidate hn od e src false bf st = st := by
      simp only [tierValidate]
      rw [if_neg (by simp)]
    rw [hred]
    exact ⟨h, rfl⟩
  | true =>
    subst hkp
    have hta : tierAccept hn od e src = false := by
      rcases hna with h1 | h1
      · exact absurd h1 (by simp)
      · exact h1
    unfold tierAccept at hta
    cases e with
    | none =>
      have hred : tierValidate hn od none src true bf st
          = ⟨none, st.detail, st.writes⟩ := by
        simp only [tierValidate]
        rw [if_pos (by simp [h])]
      rw [hred]
      exact ⟨rfl, rfl⟩
    | some tk =>
      have hta2 : (!tk.property_token.isEmpty
          && (validateCachedToken hn od tk src).isOk) = false := hta
      by_cases htok : tk.property_token.isEmpty = true
      · have hred : tierValidate hn od (some tk) src true bf st
            = ⟨some tk, st.detail, st.writes⟩ := by
          simp only [tierValidate]
          rw [if_pos (by simp [h]), if_neg (by simp [htok])]
        rw [hred]
        exact ⟨by simp [hasTok, htok], rfl⟩
      · have htok2 : (!tk.property_token.isEmpty) = true := by simp [htok]
        have hok : (validateCachedToken hn od tk src).isOk = false := by
          cases hisok : (validateCachedToken hn od tk src).isOk
          · rfl
          · rw [htok2, hisok] at hta2
            exact absurd hta2 (by simp)
        cases hv : validateCachedToken hn od tk src with
        | accepted u a b c d e2 f => exact absurd hok (by simp [hv, ValidateResult.isOk])
        | rejected r d2 a b c d e2 =>
          have hred : tierValidate hn od (some tk) src true bf st
              = ⟨none, "invalid-" ++ src ++ ":"
                  ++ ((ValidateResult.rejected r d2 a b c d e2).reasonOf.getD ""),
                  st.writes⟩ := by
            simp only [tierValidate]
            rw [if_pos (by simp [h]), if_pos htok2, hv]
          rw [hred]
          exact ⟨rfl, rfl⟩
        | missingName =>
          have hred : tierValidate hn od (some tk) src true bf st
              = ⟨none, "invalid-" ++ src ++ ":"
                  ++ ((ValidateResult.missingName).reasonOf.getD ""), st.writes⟩ := by
            simp only [tierValidate]
            rw [if_pos (by simp [h]), if_pos htok2, hv]
          rw [hred]
          exact ⟨rfl, rfl⟩

theorem tierValidate_accept (hn od : Str) (e : Option TokenObj) (src : String)
    (kp bf : Bool) (st : RState) (h : hasTok st.tokenObj = false) (hkp : kp = true)
    (hta : tierAccept hn od e src = true) :
    ∃ tk u, e = some tk
      ∧ (validateCachedToken hn od tk src).updatesOf = some u
      ∧ tierValidate hn od e src kp bf st
          = ⟨some (applyUpdates tk u), src,
              st.writes ++ (if bf && !od.isEmpty then
                [CacheWrite.domainW (applyUpdates tk u) TOKEN_TTL_SEC] else [])⟩
      ∧ (applyUpdates tk u).property_token ≠ [] := by
  subst hkp
  unfold tierAccept at hta
  cases e with
  | none => exact absurd hta (by simp)
  | some tk =>
    have hta2 : (!tk.property_token.isEmpty
        && (validateCachedToken hn od tk src).isOk) = true := hta
    have h2 := Bool.and_eq_true_iff.mp hta2
    cases hv : validateCachedToken hn od tk src with
    | rejected r d2 a b c d e2 =>
      rw [hv] at h2
      exact absurd h2.2 (by simp [ValidateResult.isOk])
    | missingName =>
      rw [hv] at h2
      exact absurd h2.2 (by simp [ValidateResult.isOk])
    | accepted u a b c d e2 f =>
      have hred : tierValidate hn od (some tk) src true bf st
          = ⟨some (applyUpdates tk u), src,
              st.writes ++ (if bf && !od.isEmpty then
                [CacheWrite.domainW (applyUpdates tk u) TOKEN_TTL_SEC] else [])⟩ := by
        simp only [tierValidate]
        rw [if_pos (by simp [h]), if_pos h2.1, hv]
      refine ⟨tk, u, rfl, by simp [hv, ValidateResult.updatesOf], hred, ?_⟩
      have htk : tk.property_token ≠ [] := by simpa [List.isEmpty_iff] using h2.1
      simpa [applyUpdates] using htk

theorem liveBranch_facts (env : ResolveEnv) (st : RState) :
    (liveBranch env st).liveCalled = true
    ∧ (servedDetail (liveBranch env st) = some "miss"
        ∨ servedDetail (liveBranch env st) = none) := by
  unfold liveBranch
  cases hl : env.liveProperties with
  | none => simp [servedDetail]
  | some props =>
    cases hp : pickBestProperty props env.hotelName env.officialDomain (envAltQuery env) with
    | none => simp [hp, servedDetail]
    | some picked =>
      simp only [hp]
      cases hb : picked.best with
      | none => simp [hb, servedDetail]
      | some b =>
        simp only [hb]
        by_cases hbe : b.property_token.isEmpty = true
        · simp [hbe, servedDetail]
        · simp [hbe, servedDetail]

/-- C9: without the refresh flag, one resolution attempt serves from the
session context exactly when the context pick is accepted (winner with a
property token, confidence at least 0.55, no hard mismatch); otherwise
from the domain-keyed cache exactly when its entry validates; otherwise
from the booking-slug cache; otherwise from the name-keyed cache; and a
live search is performed exactly when no cache tier accepted.  On a
context acceptance with confidence at least 0.75 the name-keyed and, when
a domain is known, the domain-keyed caches are backfilled by dispatched
background writes (modelled as detached write descriptors with no result
channel, so their outcome cannot reach the caller); below 0.75 the
context tier dispatches no write. -/
theorem claim_C9 (env : ResolveEnv) (hr : env.refresh = false) :
    (servedDetail (resolveToken env) = some "ctx-hit" ↔ ctxAccept env = true)
    ∧ (servedDetail (resolveToken env) = some "hit-domain"
        ↔ (ctxAccept env = false ∧ domainAccept env = true))
    ∧ (servedDetail (resolveToken env) = some "hit-booking"
        ↔ (ctxAccept env = false ∧ domainAccept env = false ∧ bookingAccept env = true))
    ∧ (servedDetail (resolveToken env) = some "hit-name"
        ↔ (ctxAccept env = false ∧ domainAccept env = false ∧ bookingAccept env = false
            ∧ nameAccept env = true))
    ∧ ((resolveToken env).liveCalled = true
        ↔ (ctxAccept env = false ∧ domainAccept env = false ∧ bookingAccept env = false
            ∧ nameAccept env = false))
    ∧ (ctxAccept env = true →
        ∃ t, (resolveToken env).outcome = ResolveOutcome.resolved "ctx-hit" t
          ∧ (qc 75 100 ≤ t.confidence →
              CacheWrite.nameW t TOKEN_TTL_NO_DOMAIN_SEC ∈ (resolveToken env).writes
              ∧ (env.officialDomain ≠ [] →
                  CacheWrite.domainW t TOKEN_TTL_SEC ∈ (resolveToken env).writes))
          ∧ (¬(qc 75 100 ≤ t.confidence) → (resolveToken env).writes = [])) := by
  have hpipe : resolveToken env =
      (match (tierValidate env.hotelName env.officialDomain env.nameEntry "hit-name" true true
          (tierValidate env.hotelName env.officialDomain env.bookingEntry "hit-booking"
            (!env.bookingSlug.isEmpty) false
            (tierValidate env.hotelName env.officialDomain env.domainEntry "hit-domain"
              (!env.officialDomain.isEmpty) false
              (ctxTier env ⟨none, "miss", []⟩)))).tokenObj with
      | some t =>
        if !t.property_token.isEmpty then
          ⟨.resolved (tierValidate env.hotelName env.officialDomain env.nameEntry "hit-name"
              true true
            (tierValidate env.hotelName env.officialDomain env.bookingEntry "hit-booking"
              (!env.bookingSlug.isEmpty) false
              (tierValidate env.hotelName env.officialDomain env.domainEntry "hit-domain"
                (!env.officialDomain.isEmpty) false
                (ctxTier env ⟨none, "miss", []⟩)))).detail t,
            (tierValidate env.hotelName env.officialDomain env.nameEntry "hit-name" true true
              (tierValidate env.hotelName env.officialDomain env.bookingEntry "hit-booking"
                (!env.bookingSlug.isEmpty) false
                (tierValidate env.hotelName env.officialDomain env.domainEntry "hit-domain"
                  (!env.officialDomain.isEmpty) false
                  (ctxTier env ⟨none, "miss", []⟩)))).writes, false⟩
        else liveBranch env
          (tierValidate env.hotelName env.officialDomain env.nameEntry "hit-name" true true
            (tierValidate env.hotelName env.officialDomain env.bookingEntry "hit-booking"
              (!env.bookingSlug.isEmpty) false
              (tierValidate env.hotelName env.officialDomain env.domainEntry "hit-domain"
                (!env.officialDomain.isEmpty) false
                (ctxTier env ⟨none, "miss", []⟩))))
      | none => liveBranch env
          (tierValidate env.hotelName env.officialDomain env.nameEntry "hit-name" true true
            (tierValidate env.hotelName env.officialDomain env.bookingEntry "hit-booking"
              (!env.bookingSlug.isEmpty) false
              (tierValidate env.hotelName env.officialDomain env.domainEntry "hit-domain"
                (!env.officialDomain.isEmpty) false
                (ctxTier env ⟨none, "miss", []⟩))))) := by
    unfold resolveToken
    rw [hr]
    rfl
  by_cases hc : ctxAccept env = true
  · obtain ⟨t, ht, htk, hdet, hw75, hw75n⟩ := ctxTier_accept env ⟨none, "miss", []⟩ hc
    have htokb : t.property_token.isEmpty = false := by
      simpa [List.isEmpty_iff] using htk
    have hht : hasTok (ctxTier env ⟨none, "miss", []⟩).tokenObj = true := by
      rw [ht]
      simp [hasTok, htokb]
    have e1 := tierValidate_hasTok env.hotelName env.officialDomain env.domainEntry
      "hit-domain" (!env.officialDomain.isEmpty) false (ctxTier env ⟨none, "miss", []⟩) hht
    have e2 := tierValidate_hasTok env.hotelName env.officialDomain env.bookingEntry
      "hit-booking" (!env.bookingSlug.isEmpty) false (ctxTier env ⟨none, "miss", []⟩) hht
    have e3 := tierValidate_hasTok env.hotelName env.officialDomain env.nameEntry
      "hit-name" true true (ctxTier env ⟨none, "miss", []⟩) hht
    have hres : resolveToken env
        = ⟨.resolved "ctx-hit" t, (ctxTier env ⟨none, "miss", []⟩).writes, false⟩ := by
      rw [hpipe, e1, e2, e3, ht]
      simp [htokb, hdet]
    have hserve2 : servedDetail (resolveToken env) = some "ctx-hit" := by
      rw [hres]
      simp [servedDetail]
    have hlive2 : (resolveToken env).liveCalled = false := by
      rw [hres]
    refine ⟨?_, ?_, ?_, ?_, ?_, ?_⟩
    · exact iff_of_true hserve2 hc
    · refine iff_of_false (by simp [hserve2]) ?_
      intro hx
      rw [hx.1] at hc
      exact absurd hc (by decide)
    · refine iff_of_false (by simp [hserve2]) ?_
      intro hx
      rw [hx.1] at hc
      exact absurd hc (by decide)
    · refine iff_of_false (by simp [hserve2]) ?_
      intro hx
      rw [hx.1] at hc
      exact absurd hc (by decide)
    · refine iff_of_false (by simp [hlive2]) ?_
      intro hx
      rw [hx.1] at hc
      exact absurd hc (by decide)
    · intro _
      refine ⟨t, by rw [hres], ?_, ?_⟩
      · intro h75
        rw [hres]
        exact hw75 h75
      · intro h75
        rw [hres]
        exact hw75n h75
  · have hc2 : ctxAccept env = false := by simpa using hc
    have hctx : ctxTier env ⟨none, "miss", []⟩ = ⟨none, "miss", []⟩ :=
      ctxTier_not_accept env ⟨none, "miss", []⟩ hc2
    by_cases hd : domainAccept env = true
    · have h2 := Bool.and_eq_true_iff.mp hd
      obtain ⟨tk, u, he, hupd, hred, htok⟩ := tierValidate_accept env.hotelName
        env.officialDomain env.domainEntry "hit-domain" (!env.officialDomain.isEmpty) false
        ⟨none, "miss", []⟩ rfl h2.1 h2.2
      have htokb : (applyUpdates tk u).property_token.isEmpty = false := by
        simpa [List.isEmpty_iff] using htok
      have hht : hasTok (tierValidate env.hotelName env.officialDomain env.domainEntry "hit-domain"
        (!env.officialDomain.isEmpty) false ⟨none, "miss", []⟩).tokenObj = true := by
        rw [hred]
        simp [hasTok, htokb]
      have e2 := tierValidate_hasTok env.hotelName env.officialDomain env.bookingEntry
        "hit-booking" (!env.bookingSlug.isEmpty) false _ hht
      have e3 := tierValidate_hasTok env.hotelName env.officialDomain env.nameEntry
        "hit-name" true true _ hht
      have hserve2 : servedDetail (resolveToken env) = some "hit-domain" := by
        rw [hpipe, hctx, e2, e3, hred]
        simp [htokb, servedDetail]
      have hlive2 : (resolveToken env).liveCalled = false := by
        rw [hpipe, hctx, e2, e3, hred]
        simp [htokb]
      refine ⟨?_, ?_, ?_, ?_, ?_, ?_⟩
      · refine iff_of_false (by simp [hserve2]) ?_
        intro hx
        rw [hx] at hc2
        exact absurd hc2 (by decide)
      · exact iff_of_true hserve2 ⟨hc2, hd⟩
      · refine iff_of_false (by simp [hserve2]) ?_
        intro hx
        rw [hx.2.1] at hd
        exact absurd hd (by decide)
      · refine iff_of_false (by simp [hserve2]) ?_
        intro hx
        rw [hx.2.1] at hd
        exact absurd hd (by decide)
      · refine iff_of_false (by simp [hlive2]) ?_
        intro hx
        rw [hx.2.1] at hd
        exact absurd hd (by decide)
      · intro hx
        rw [hx] at hc2
        exact absurd hc2 (by decide)
    · have hd2 : domainAccept env = false := by simpa using hd
      have hnad : (!env.officialDomain.isEmpty) = false
          ∨ tierAccept env.hotelName env.officialDomain env.domainEntry "hit-domain"
            = false := by
        cases hodk : (!env.officialDomain.isEmpty) with
        | false => exact Or.inl rfl
        | true =>
          right
          cases hta2 : tierAccept env.hotelName env.officialDomain env.domainEntry
            "hit-domain" with
          | false => rfl
          | true =>
            rw [domainAccept, hodk, hta2] at hd2
            exact absurd hd2 (by decide)
      obtain ⟨hdt, hdw⟩ := tierValidate_not_accept env.hotelName env.officialDomain
        env.domainEntry "hit-domain" (!env.officialDomain.isEmpty) false ⟨none, "miss", []⟩
        rfl hnad
      by_cases hb : bookingAccept env = true
      · have h2 := Bool.and_eq_true_iff.mp hb
        obtain ⟨tk, u, he, hupd, hred, htok⟩ := tierValidate_accept env.hotelName
          env.officialDomain env.bookingEntry "hit-booking" (!env.bookingSlug.isEmpty) false
          (tierValidate env.hotelName env.officialDomain env.domainEntry "hit-domain"
        (!env.officialDomain.isEmpty) false ⟨none, "miss", []⟩) hdt h2.1 h2.2
        have htokb : (applyUpdates tk u).property_token.isEmpty = false := by
          simpa [List.isEmpty_iff] using htok
        have hht : hasTok (tierValidate env.hotelName env.officialDomain env.bookingEntry
            "hit-booking" (!env.bookingSlug.isEmpty) false
            (tierValidate env.hotelName env.officialDomain env.domainEntry "hit-domain"
        (!env.officialDomain.isEmpty) false ⟨none, "miss", []⟩)).tokenObj = true := by
          rw [hred]
          simp [hasTok, htokb]
        have e3 := tierValidate_hasTok env.hotelName env.officialDomain env.nameEntry
          "hit-name" true true _ hht
        have hserve2 : servedDetail (resolveToken env) = some "hit-booking" := by
          rw [hpipe, hctx, e3, hred]
          simp [htokb, servedDetail]
        have hlive2 : (resolveToken env).liveCalled = false := by
          rw [hpipe, hctx, e3, hred]
          simp [htokb]
        refine ⟨?_, ?_, ?_, ?_, ?_, ?_⟩
        · refine iff_of_false (by simp [hserve2]) ?_
          intro hx
          rw [hx] at hc2
          exact absurd hc2 (by decide)
        · refine iff_of_false (by simp [hserve2]) ?_
          intro hx
          rw [hx.2] at hd2
          exact absurd hd2 (by decide)
        · exact iff_of_true hserve2 ⟨hc2, hd2, hb⟩
        · refine iff_of_false (by simp [hserve2]) ?_
          intro hx
          rw [hx.2.2.1] at hb
          exact absurd hb (by decide)
        · refine iff_of_false (by simp [hlive2]) ?_
          intro hx
          rw [hx.2.2.1] at hb
          exact absurd hb (by decide)
        · intro hx
          rw [hx] at hc2
          exact absurd hc2 (by decide)
      · have hb2 : bookingAccept env = false := by simpa using hb
        have hnab : (!env.bookingSlug.isEmpty) = false
            ∨ tierAccept env.hotelName env.officialDomain env.bookingEntry "hit-booking"
              = false := by
          cases hodk : (!env.bookingSlug.isEmpty) with
          | false => exact Or.inl rfl
          | true =>
            right
            cases hta2 : tierAccept env.hotelName env.officialDomain env.bookingEntry
              "hit-booking" with
            | false => rfl
            | true =>
              rw [bookingAccept, hodk, hta2] at hb2
              exact absurd hb2 (by decide)
        obtain ⟨hbt, hbw⟩ := tierValidate_not_accept env.hotelName env.officialDomain
          env.bookingEntry "hit-booking" (!env.bookingSlug.isEmpty) false
          (tierValidate env.hotelName env.officialDomain env.domainEntry "hit-domain"
        (!env.officialDomain.isEmpty) false ⟨none, "miss", []⟩) hdt hnab
        by_cases hn : nameAccept env = true
        · obtain ⟨tk, u, he, hupd, hred, htok⟩ := tierValidate_accept env.hotelName
            env.officialDomain env.nameEntry "hit-name" true true
            (tierValidate env.hotelName env.officialDomain env.bookingEntry "hit-booking"
              (!env.bookingSlug.isEmpty) false
              (tierValidate env.hotelName env.officialDomain env.domainEntry "hit-domain"
        (!env.officialDomain.isEmpty) false ⟨none, "miss", []⟩)) hbt rfl hn
          have htokb : (applyUpdates tk u).property_token.isEmpty = false := by
            simpa [List.isEmpty_iff] using htok
          have hserve2 : servedDetail (resolveToken env) = some "hit-name" := by
            rw [hpipe, hctx, hred]
            simp [htokb, servedDetail]
          have hlive2 : (resolveToken env).liveCalled = false := by
            rw [hpipe, hctx, hred]
            simp [htokb]
          refine ⟨?_, ?_, ?_, ?_, ?_, ?_⟩
          · refine iff_of_false (by simp [hserve2]) ?_
            intro hx
            rw [hx] at hc2
            exact absurd hc2 (by decide)
          · refine iff_of_false (by simp [hserve2]) ?_
            intro hx
            rw [hx.2] at hd2
            exact absurd hd2 (by decide)
          · refine iff_of_false (by simp [hserve2]) ?_
            intro hx
            rw [hx.2.2] at hb2
            exact absurd hb2 (by decide)
          · exact iff_of_true hserve2 ⟨hc2, hd2, hb2, hn⟩
          · refine iff_of_false (by simp [hlive2]) ?_
            intro hx
            rw [hx.2.2.2] at hn
            exact absurd hn (by decide)
          · intro hx
            rw [hx] at hc2
            exact absurd hc2 (by decide)
        · have hn2 : nameAccept env = false := by simpa using hn
          obtain ⟨hnt, hnw⟩ := tierValidate_not_accept env.hotelName env.officialDomain
            env.nameEntry "hit-name" true true
            (tierValidate env.hotelName env.officialDomain env.bookingEntry "hit-booking"
              (!env.bookingSlug.isEmpty) false
              (tierValidate env.hotelName env.officialDomain env.domainEntry "hit-domain"
        (!env.officialDomain.isEmpty) false ⟨none, "miss", []⟩)) hbt (Or.inr hn2)
          have hres : resolveToken env = liveBranch env
              (tierValidate env.hotelName env.officialDomain env.nameEntry "hit-name" true
                true
                (tierValidate env.hotelName env.officialDomain env.bookingEntry "hit-booking"
                  (!env.bookingSlug.isEmpty) false
                  (tierValidate env.hotelName env.officialDomain env.domainEntry "hit-domain"
        (!env.officialDomain.isEmpty) false ⟨none, "miss", []⟩))) := by
            rw [hpipe, hctx]
            split
            · rename_i t2 hto
              rw [hto] at hnt
              have ht2 : t2.property_token.isEmpty = true := by
                simpa [hasTok] using hnt
              rw [if_neg (by simp [ht2])]
            · rfl
          obtain ⟨hl1, hl2⟩ := liveBranch_facts env
            (tierValidate env.hotelName env.officialDomain env.nameEntry "hit-name" true true
              (tierValidate env.hotelName env.officialDomain env.bookingEntry "hit-booking"
                (!env.bookingSlug.isEmpty) false
                (tierValidate env.hotelName env.officialDomain env.domainEntry "hit-domain"
        (!env.officialDomain.isEmpty) false ⟨none, "miss", []⟩)))
          have hserve : ∀ s : String, s ≠ "miss" →
              ¬(servedDetail (resolveToken env) = some s) := by
            intro s hs hcon
            rw [hres] at hcon
            rcases hl2 with h1 | h1
            · rw [hcon] at h1
              exact hs (Option.some_inj.mp h1)
            · rw [hcon] at h1
              exact absurd h1 (by simp)
          refine ⟨?_, ?_, ?_, ?_, ?_, ?_⟩
          · refine iff_of_false (hserve "ctx-hit" (by decide)) ?_
            simp [hc2]
          · refine iff_of_false (hserve "hit-domain" (by decide)) ?_
            simp [hd2]
          · refine iff_of_false (hserve "hit-booking" (by decide)) ?_
            simp [hb2]
          · refine iff_of_false (hserve "hit-name" (by decide)) ?_
            simp [hn2]
          · rw [hres]
            simp [hl1, hc2, hd2, hb2, hn2]
          · intro hx
            rw [hx] at hc2
            exact absurd hc2 (by decide)

/-- Witness for C9: the tier-ordering theorem instantiated at a concrete
environment with no cache entries, the refresh hypothesis discharged by rfl. -/
theorem claim_C9_witness :
    c9env.refresh = false
    ∧ ((servedDetail (resolveToken c9env) = some "ctx-hit" ↔ ctxAccept c9env = true)
    ∧ (servedDetail (resolveToken c9env) = some "hit-domain"
        ↔ (ctxAccept c9env = false ∧ domainAccept c9env = true))
    ∧ (servedDetail (resolveToken c9env) = some "hit-booking"
        ↔ (ctxAccept c9env = false ∧ domainAccept c9env = false
            ∧ bookingAccept c9env = true))
    ∧ (servedDetail (resolveToken c9env) = some "hit-name"
        ↔ (ctxAccept c9env = false ∧ domainAccept c9env = false
            ∧ bookingAccept c9env = false ∧ nameAccept c9env = true))
    ∧ ((resolveToken c9env).liveCalled = true
        ↔ (ctxAccept c9env = false ∧ domainAccept c9env = false
            ∧ bookingAccept c9env = false ∧ nameAccept c9env = false))
    ∧ (ctxAccept c9env = true →
        ∃ t, (resolveToken c9env).outcome = ResolveOutcome.resolved "ctx-hit" t
          ∧ (qc 75 100 ≤ t.confidence →
              CacheWrite.nameW t TOKEN_TTL_NO_DOMAIN_SEC ∈ (resolveToken c9env).writes
              ∧ (c9env.officialDomain ≠ [] →
                  CacheWrite.domainW t TOKEN_TTL_SEC ∈ (resolveToken c9env).writes))
          ∧ (¬(qc 75 100 ≤ t.confidence) → (resolveToken c9env).writes = []))) :=
  ⟨rfl, claim_C9 c9env rfl⟩

end HW
